import Mathlib

/-!
Verification development for the market_sentiment_project ingestion pipeline.

The definitions below are a shallow embedding of the repository's database
layer (`src/db/schema.py`, `src/db/config.py`, `src/db/loaders/*.py`) and of
the sentiment analyzer (`src/market_sentiment/data/processors/
sentiment_analyzer.py`).

Modelling conventions:
  - JSON documents (the loaders' inputs, produced by `json.load`) are values
    of the inductive type `Json`.  Python `dict.get` on a non-dict raises
    `AttributeError`; fallible Python steps are `Except String` computations
    whose error string names the Python exception class.
  - SQLite cell values are `Scalar` (NULL, TEXT, or numeric).  Binding a
    query parameter fails with `InterfaceError` on a non-scalar value, as in
    Python's sqlite3.  SQL `=` comparison is `sqlEq` (NULL never equals
    anything, TEXT and numbers never compare equal).
  - The database is a record of five tables (lists of rows, in rowid order)
    plus one AUTOINCREMENT counter per table.
  - Loader summary dictionaries are insertion-ordered association lists with
    Python-dict update semantics (`dictSet`).
  - REAL values are modelled as rationals.
-/

/-- JSON values as produced by `json.load` (booleans do not occur in the
claims' inputs and are omitted). -/
inductive Json where
  | null : Json
  | str : String → Json
  | num : Rat → Json
  | arr : List Json → Json
  | obj : List (String × Json) → Json

/-- SQLite cell values: what a bound parameter becomes inside the store. -/
inductive Scalar where
  | null : Scalar
  | s : String → Scalar
  | n : Rat → Scalar
deriving DecidableEq

/-- Binding a Python value as a SQL parameter: scalars bind, containers
raise `InterfaceError` (sqlite3 refuses lists and dicts). -/
def bindScalar : Json → Except String Scalar
  | Json.null => Except.ok Scalar.null
  | Json.str v => Except.ok (Scalar.s v)
  | Json.num v => Except.ok (Scalar.n v)
  | Json.arr _ => Except.error "InterfaceError"
  | Json.obj _ => Except.error "InterfaceError"

/-- SQL `=` comparison on stored values: NULL compares equal to nothing
(including NULL), and values of different storage classes are unequal.
SQLite's UNIQUE constraint uses the same notion, with NULLs distinct. -/
def sqlEq : Scalar → Scalar → Bool
  | Scalar.s a, Scalar.s b => a == b
  | Scalar.n a, Scalar.n b => a == b
  | _, _ => false

/-- `fields.get k` on a parsed JSON object: first binding wins (objects from
`json.load` have unique keys). -/
def objGet (fields : List (String × Json)) (k : String) (dflt : Json) : Json :=
  match fields.find? (fun kv => kv.1 == k) with
  | some kv => kv.2
  | none => dflt

/-- Python `value.get(k, default)`: succeeds on a dict, raises
`AttributeError` on anything else (including `None`). -/
def Json.get : Json → String → Json → Except String Json
  | Json.obj fields, k, dflt => Except.ok (objGet fields k dflt)
  | _, _, _ => Except.error "AttributeError"

/-- Python `for x in value`: lists iterate their elements, dicts iterate
their keys (as strings), strings iterate their one-character substrings;
`None` and numbers raise `TypeError`. -/
def pyIter : Json → Except String (List Json)
  | Json.arr xs => Except.ok xs
  | Json.obj fields => Except.ok (fields.map (fun kv => Json.str kv.1))
  | Json.str v => Except.ok (v.toList.map (fun c => Json.str (String.mk [c])))
  | Json.null => Except.error "TypeError"
  | Json.num _ => Except.error "TypeError"

/-- Python `value.items()`: pairs of a dict, `AttributeError` otherwise. -/
def pyItems : Json → Except String (List (String × Json))
  | Json.obj fields => Except.ok fields
  | _ => Except.error "AttributeError"

/-! ### src/db/config.py -/

/-- `POSITIVE_THRESHOLD = 0.05` (src/db/config.py line 32); written with
`mkRat` so that concrete runs reduce inside the kernel. -/
def POSITIVE_THRESHOLD : Rat := mkRat 5 100

/-- `NEGATIVE_THRESHOLD = -0.05` (src/db/config.py line 33). -/
def NEGATIVE_THRESHOLD : Rat := mkRat (-5) 100

/-- `TRACKED_SYMBOLS = ['AAPL', 'MSFT', 'GOOGL']` (src/db/config.py). -/
def TRACKED_SYMBOLS : List String := ["AAPL", "MSFT", "GOOGL"]

/-! ### src/db/schema.py -/

/-- `get_sentiment_label` (src/db/schema.py lines 154-169). -/
def get_sentiment_label (score : Rat) : String :=
  if score ≥ POSITIVE_THRESHOLD then "positive"
  else if score ≤ NEGATIVE_THRESHOLD then "negative"
  else "neutral"

/-- The loaders apply `get_sentiment_label` to the raw compound value; Python
raises `TypeError` when comparing a non-number against `0.05`.  Returns the
numeric score together with its label. -/
def labelOfQ : Json → Except String (Rat × String)
  | Json.num q => Except.ok (q, get_sentiment_label q)
  | _ => Except.error "TypeError"

/-- A row of the `stocks` table (`symbol` and `date` are bound from Python
strings, the OHLCV cells from the JSON file). -/
structure StockRow where
  id : Nat
  symbol : String
  date : String
  open_ : Scalar
  high : Scalar
  low : Scalar
  close : Scalar
  adj_close : Scalar
  volume : Scalar
deriving DecidableEq

/-- A row of the `news` table.  Note: the schema declares NO UNIQUE
constraint on this table (src/db/schema.py lines 81-92). -/
structure NewsRow where
  id : Nat
  source : Scalar
  datetime : Scalar
  headline : Scalar
  summary : Scalar
  url : Scalar
  sentiment_score : Scalar
  sentiment_label : Scalar
deriving DecidableEq

/-- A row of the `tweets` table; `tweet_id` is declared `TEXT UNIQUE`
(src/db/schema.py line 98). -/
structure TweetRow where
  id : Nat
  tweet_id : Scalar
  user_name : Scalar
  user_screen_name : Scalar
  datetime : Scalar
  content : Scalar
  sentiment_score : Scalar
  sentiment_label : Scalar
deriving DecidableEq

/-- A row of the `stock_news` link table (no UNIQUE constraint). -/
structure StockNewsRow where
  id : Nat
  stock_id : Nat
  news_id : Nat
  sentiment_score : Scalar
deriving DecidableEq

/-- A row of the `stock_tweets` link table (no UNIQUE constraint). -/
structure StockTweetRow where
  id : Nat
  stock_id : Nat
  tweet_id : Nat
  sentiment_score : Scalar
deriving DecidableEq

/-- The five tables created by `create_database` (src/db/schema.py), each
with its AUTOINCREMENT counter.  Lists are kept in rowid order. -/
structure DB where
  stocks : List StockRow
  news : List NewsRow
  tweets : List TweetRow
  stock_news : List StockNewsRow
  stock_tweets : List StockTweetRow
  seq_stocks : Nat
  seq_news : Nat
  seq_tweets : Nat
  seq_stock_news : Nat
  seq_stock_tweets : Nat
deriving DecidableEq

/-- A freshly created, empty store. -/
def emptyDB : DB := ⟨[], [], [], [], [], 0, 0, 0, 0, 0⟩

/-- `get_stock_symbols_map` (src/db/schema.py lines 140-152): the Python
dict comprehension `{row['symbol']: row['id']}` keeps, for each symbol, the
id of the last row in SELECT (rowid) order. -/
def get_stock_symbols_map (db : DB) : String → Option Nat :=
  fun sym => (((db.stocks.filter (fun r => r.symbol == sym)).map StockRow.id).getLast?)

/-! ### Loader summary dictionaries -/

/-- A value of a loader summary dict: a count or a message string. -/
inductive SVal where
  | num : Nat → SVal
  | msg : String → SVal
deriving DecidableEq

/-- Python dicts keep insertion order; an update replaces in place. -/
abbrev Dict := List (String × SVal)

/-- `d[k] = v` with Python-dict semantics. -/
def dictSet : Dict → String → SVal → Dict
  | [], k, v => [(k, v)]
  | (k', v') :: rest, k, v =>
      if k' == k then (k, v) :: rest else (k', v') :: dictSet rest k v

/-- `d.get(k)`. -/
def dictLookup : Dict → String → Option SVal
  | [], _ => none
  | (k', v') :: rest, k => if k' == k then some v' else dictLookup rest k

/-- Read a counter entry of a summary dict (the loaders only apply `+=` to
keys they have initialised with a count). -/
def dictGetNum (d : Dict) (k : String) : Nat :=
  match dictLookup d k with
  | some (SVal.num n) => n
  | _ => 0

/-! ### SentimentAnalyzer.analyze_text
(src/market_sentiment/data/processors/sentiment_analyzer.py lines 44-71) -/

/-- The four VADER polarity scores. -/
structure Scores where
  compound : Rat
  neg : Rat
  neu : Rat
  pos : Rat
deriving DecidableEq

/-- `{compound: 0, neg: 0, neu: 1, pos: 0}` — the neutral default. -/
def neutralScores : Scores := ⟨0, 0, 1, 0⟩

/-- Result of `analyze_text`: either the scores dict returned by
`polarity_scores`, or the neutral default together with an `error` entry. -/
inductive AnalyzeResult where
  | scores : Scores → AnalyzeResult
  | scoresWithError : Scores → String → AnalyzeResult
deriving DecidableEq

/-- `not text or not isinstance(text, str)`: true unless `text` is a
non-empty string (empty string, `None`, `0`, `[]`, `{}` are all falsy). -/
def missingOrNotString : Json → Bool
  | Json.str v => v == ""
  | _ => true

/-- `SentimentAnalyzer.analyze_text`.  The VADER scorer itself
(`self.analyzer.polarity_scores`) is an external library call, taken as the
parameter `polarity`; a raising call is an `Except.error` result. -/
def analyze_text (polarity : String → Except String Scores) (text : Json) :
    AnalyzeResult :=
  match text with
  | Json.str v =>
      if v == "" then
        AnalyzeResult.scoresWithError neutralScores
          "Input text is missing or not a string"
      else
        match polarity v with
        | Except.ok sc => AnalyzeResult.scores sc
        | Except.error e => AnalyzeResult.scoresWithError neutralScores e
  | _ =>
      AnalyzeResult.scoresWithError neutralScores
        "Input text is missing or not a string"

/-! ### src/db/loaders/news_loader.py -/

/-- The per-article values extracted and bound before the `news` insert
(`load_news_data`, lines 62-80).  `symbols` is read by `article.get` after
the insert in the source; for a dict article that read cannot fail, so it is
recorded here.  `q`/`label` come from `get_sentiment_label(sentiment_score)`
via `labelOfQ`. -/
structure NewsParams where
  bSource : Scalar
  bPub : Scalar
  bTitle : Scalar
  bDesc : Scalar
  bUrl : Scalar
  q : Rat
  label : String
  symbols : Json

/-- Extraction and binding steps of one article (lines 62-80 of
`news_loader.py`), in source order. -/
def newsParams (article : Json) : Except String NewsParams := do
  let source ← article.get "source" (Json.str "Unknown")
  let published_at ← article.get "published_at" (Json.str "")
  let title ← article.get "title" (Json.str "")
  let description ← article.get "description" (Json.str "")
  let url ← article.get "url" (Json.str "")
  let sentiment ← article.get "sentiment" (Json.obj [])
  let sentiment_score ← sentiment.get "compound" (Json.num 0)
  let ql ← labelOfQ sentiment_score
  let bSource ← bindScalar source
  let bPub ← bindScalar published_at
  let bTitle ← bindScalar title
  let bDesc ← bindScalar description
  let bUrl ← bindScalar url
  let symbols ← article.get "symbols" (Json.arr [])
  Except.ok ⟨bSource, bPub, bTitle, bDesc, bUrl, ql.1, ql.2, symbols⟩

/-- The `news` row built by the insert at lines 76-80. -/
def mkNewsRow (i : Nat) (p : NewsParams) : NewsRow :=
  ⟨i, p.bSource, p.bPub, p.bTitle, p.bDesc, p.bUrl, Scalar.n p.q, Scalar.s p.label⟩

/-- Membership test `symbol in stock_map` plus lookup: Python hashes the
candidate (lists/dicts raise `TypeError`); only a string can match the
string keys of the map. -/
def stockIdOf (smap : String → Option Nat) : Json → Except String (Option Nat)
  | Json.str v => Except.ok (smap v)
  | Json.num _ => Except.ok none
  | Json.null => Except.ok none
  | Json.arr _ => Except.error "TypeError"
  | Json.obj _ => Except.error "TypeError"

/-- The linking loop of `load_news_data` (lines 99-108): one
`INSERT OR IGNORE INTO stock_news` per known symbol.  `stock_news` has no
UNIQUE constraint, so each insert appends a row. -/
def linkArticleSymbols (smap : String → Option Nat) (news_id : Nat)
    (score : Scalar) : List Json → DB → Dict → Except String (DB × Dict)
  | [], db, s => Except.ok (db, s)
  | sym :: rest, db, s => do
    let sid? ← stockIdOf smap sym
    match sid? with
    | some stock_id =>
        let newId := db.seq_stock_news + 1
        let db' : DB := { db with
          stock_news := db.stock_news ++ [⟨newId, stock_id, news_id, score⟩],
          seq_stock_news := newId }
        let s' := dictSet s "linked" (SVal.num (dictGetNum s "linked" + 1))
        linkArticleSymbols smap news_id score rest db' s'
    | none => linkArticleSymbols smap news_id score rest db s

/-- One iteration of the article loop of `load_news_data` (lines 62-108).
The `news` table has no UNIQUE constraint, so `INSERT OR IGNORE` always
inserts and `lastrowid` is always set; the `if not news_id` fallback SELECT
(lines 84-94) is kept for fidelity but never fires. -/
def processArticle (smap : String → Option Nat) (article : Json) (db : DB)
    (summary : Dict) : Except String (DB × Dict) := do
  let p ← newsParams article
  let newId := db.seq_news + 1
  let db1 : DB := { db with
    news := db.news ++ [mkNewsRow newId p],
    seq_news := newId }
  let lastrowid : Option Nat := some newId
  let news_id? : Option Nat :=
    match lastrowid with
    | some i => some i
    | none =>
        (db1.news.find? (fun r => sqlEq r.headline p.bTitle &&
          sqlEq r.datetime p.bPub)).map NewsRow.id
  match news_id? with
  | none => Except.ok (db1, summary)
  | some news_id =>
      let summary1 := dictSet summary "total" (SVal.num (dictGetNum summary "total" + 1))
      let syms ← pyIter p.symbols
      linkArticleSymbols smap news_id (Scalar.n p.q) syms db1 summary1

/-- The article loop. -/
def processArticles (smap : String → Option Nat) :
    List Json → DB → Dict → Except String (DB × Dict)
  | [], db, s => Except.ok (db, s)
  | a :: rest, db, s => do
    let r ← processArticle smap a db s
    processArticles smap rest r.1 r.2

/-- `load_news_data` (src/db/loaders/news_loader.py lines 18-122), given the
already-parsed JSON document.  On any exception the transaction is rolled
back (the store reverts to its state at entry) and the error summary
`{"error": ..., "loaded_count": 0}` is returned. -/
def load_news_data (db : DB) (input : Json) : DB × Dict :=
  let smap := get_stock_symbols_map db
  let summary0 : Dict := [("total", SVal.num 0), ("linked", SVal.num 0)]
  let summary0 :=
    if db.stocks.isEmpty then
      dictSet summary0 "warning"
        (SVal.msg "No stocks found in database. Load stock data first.")
    else summary0
  match (do
      let items ← pyIter input
      processArticles smap items db summary0) with
  | Except.ok r => r
  | Except.error e => (db, [("error", SVal.msg e), ("loaded_count", SVal.num 0)])

/-! ### src/db/loaders/twitter_loader.py -/

/-- The per-tweet values extracted and bound before the `tweets` insert
(`load_twitter_data`, lines 62-81).  `text` is kept unbound as well because
the symbol search after the insert re-reads it. -/
structure TweetParams where
  bId : Scalar
  bUser : Scalar
  bScreen : Scalar
  bCreated : Scalar
  bText : Scalar
  q : Rat
  label : String
  text : Json

/-- Extraction and binding steps of one tweet (lines 62-81 of
`twitter_loader.py`), in source order.  The natural key is read from
`id_str` only, with `''` as the default. -/
def tweetParams (tweet : Json) : Except String TweetParams := do
  let tweet_id ← tweet.get "id_str" (Json.str "")
  let user ← tweet.get "user" (Json.obj [])
  let user_name ← user.get "name" (Json.str "")
  let user_screen_name ← user.get "screen_name" (Json.str "")
  let created_at ← tweet.get "created_at" (Json.str "")
  let text ← tweet.get "text" (Json.str "")
  let sentiment ← tweet.get "sentiment" (Json.obj [])
  let sentiment_score ← sentiment.get "compound" (Json.num 0)
  let ql ← labelOfQ sentiment_score
  let bId ← bindScalar tweet_id
  let bUser ← bindScalar user_name
  let bScreen ← bindScalar user_screen_name
  let bCreated ← bindScalar created_at
  let bText ← bindScalar text
  Except.ok ⟨bId, bUser, bScreen, bCreated, bText, ql.1, ql.2, text⟩

/-- The `tweets` row built by the insert at lines 77-81. -/
def mkTweetRow (i : Nat) (p : TweetParams) : TweetRow :=
  ⟨i, p.bId, p.bUser, p.bScreen, p.bCreated, p.bText, Scalar.n p.q, Scalar.s p.label⟩

/-- Substring test used to mirror Python's `sub in text`. -/
def startsWithChars : List Char → List Char → Bool
  | [], _ => true
  | _ :: _, [] => false
  | a :: as, b :: bs => a == b && startsWithChars as bs

/-- `containsChars pat text`: does `pat` occur as a contiguous run of
`text`? -/
def containsChars (pat : List Char) : List Char → Bool
  | [] => startsWithChars pat []
  | c :: rest => startsWithChars pat (c :: rest) || containsChars pat rest

/-- Python `sub in text` for strings. -/
def containsSub (text sub : String) : Bool :=
  containsChars sub.toList text.toList

/-- The symbol scan of `load_twitter_data` (lines 100-104): for each tracked
symbol, test `$SYM`, `#SYM` and the bare symbol against the tweet body.
`x in text` raises `TypeError` when `text` is not a string. -/
def symbolsInText : Json → Except String (List String)
  | Json.str t =>
      Except.ok (TRACKED_SYMBOLS.filter (fun sym =>
        containsSub t ("$" ++ sym) || containsSub t ("#" ++ sym) ||
          containsSub t sym))
  | _ => Except.error "TypeError"

/-- The linking loop of `load_twitter_data` (lines 106-114); `stock_tweets`
has no UNIQUE constraint, so each insert appends a row. -/
def linkTweetSymbols (smap : String → Option Nat) (db_tweet_id : Nat)
    (score : Scalar) : List String → DB → Dict → DB × Dict
  | [], db, s => (db, s)
  | sym :: rest, db, s =>
    match smap sym with
    | some stock_id =>
        let newId := db.seq_stock_tweets + 1
        let db' : DB := { db with
          stock_tweets := db.stock_tweets ++ [⟨newId, stock_id, db_tweet_id, score⟩],
          seq_stock_tweets := newId }
        let s' := dictSet s "linked" (SVal.num (dictGetNum s "linked" + 1))
        linkTweetSymbols smap db_tweet_id score rest db' s'
    | none => linkTweetSymbols smap db_tweet_id score rest db s

/-- One iteration of the tweet loop of `load_twitter_data` (lines 62-114).
`INSERT OR IGNORE INTO tweets` is ignored exactly when a stored `tweet_id`
compares SQL-equal to the bound key.  This model treats `lastrowid` as unset
after an ignored insert, so the loader falls back to `SELECT id FROM tweets
WHERE tweet_id = ?` (lines 85-95), skipping the tweet when that also fails.
CPython documents `lastrowid` as left unchanged after a failed insert, which
can bypass that fallback; see `processTweetCursor` for that semantics — the
two differ only in link targets and summary counters, never in the `tweets`
table itself. -/
def processTweet (smap : String → Option Nat) (tweet : Json) (db : DB)
    (summary : Dict) : Except String (DB × Dict) := do
  let p ← tweetParams tweet
  let conflict := db.tweets.any (fun r => sqlEq r.tweet_id p.bId)
  let ins : DB × Option Nat :=
    if conflict then (db, none)
    else
      let newId := db.seq_tweets + 1
      ({ db with
          tweets := db.tweets ++ [mkTweetRow newId p],
          seq_tweets := newId }, some newId)
  let db1 := ins.1
  let db_tweet_id? : Option Nat :=
    match ins.2 with
    | some i => some i
    | none => (db1.tweets.find? (fun r => sqlEq r.tweet_id p.bId)).map TweetRow.id
  match db_tweet_id? with
  | none => Except.ok (db1, summary)
  | some db_tweet_id =>
      let summary1 := dictSet summary "total" (SVal.num (dictGetNum summary "total" + 1))
      let syms ← symbolsInText p.text
      Except.ok (linkTweetSymbols smap db_tweet_id (Scalar.n p.q) syms db1 summary1)

/-- The tweet loop. -/
def processTweets (smap : String → Option Nat) :
    List Json → DB → Dict → Except String (DB × Dict)
  | [], db, s => Except.ok (db, s)
  | t :: rest, db, s => do
    let r ← processTweet smap t db s
    processTweets smap rest r.1 r.2

/-- `load_twitter_data` (src/db/loaders/twitter_loader.py lines 18-128),
given the already-parsed JSON document; exception handling as in
`load_news_data`. -/
def load_twitter_data (db : DB) (input : Json) : DB × Dict :=
  let smap := get_stock_symbols_map db
  let summary0 : Dict := [("total", SVal.num 0), ("linked", SVal.num 0)]
  let summary0 :=
    if db.stocks.isEmpty then
      dictSet summary0 "warning"
        (SVal.msg "No stocks found in database. Load stock data first.")
    else summary0
  match (do
      let items ← pyIter input
      processTweets smap items db summary0) with
  | Except.ok r => r
  | Except.error e => (db, [("error", SVal.msg e), ("loaded_count", SVal.num 0)])

/-! ### src/db/loaders/stock_loader.py -/

/-- The six bound OHLCV cells of one `stocks` row. -/
structure StockVals where
  open_ : Scalar
  high : Scalar
  low : Scalar
  close : Scalar
  adj_close : Scalar
  volume : Scalar
deriving DecidableEq

/-- `INSERT OR REPLACE INTO stocks` under `UNIQUE(symbol, date)`: SQLite
deletes every conflicting row and inserts a fresh row with a fresh rowid. -/
def upsertStock (db : DB) (sym date : String) (v : StockVals) : DB :=
  let newId := db.seq_stocks + 1
  { db with
    stocks := (db.stocks.filter (fun r => !(r.symbol == sym && r.date == date)))
      ++ [⟨newId, sym, date, v.open_, v.high, v.low, v.close, v.adj_close, v.volume⟩],
    seq_stocks := newId }

/-- The per-entry reads and bindings of the date loop of `load_stock_data`
(lines 65-79): `data.get` on each OHLCV key with default `0`, then the six
parameter bindings. -/
def entryData (e : String × Json) : Except String (String × StockVals) := do
  let vOpen ← e.2.get "Open" (Json.num 0)
  let vHigh ← e.2.get "High" (Json.num 0)
  let vLow ← e.2.get "Low" (Json.num 0)
  let vClose ← e.2.get "Close" (Json.num 0)
  let vAdj ← e.2.get "Adj Close" (Json.num 0)
  let vVol ← e.2.get "Volume" (Json.num 0)
  let bOpen ← bindScalar vOpen
  let bHigh ← bindScalar vHigh
  let bLow ← bindScalar vLow
  let bClose ← bindScalar vClose
  let bAdj ← bindScalar vAdj
  let bVol ← bindScalar vVol
  Except.ok (e.1, ⟨bOpen, bHigh, bLow, bClose, bAdj, bVol⟩)

/-- The date loop of `load_stock_data` (lines 64-80): one upsert per entry,
counting `records_count`. -/
def stockEntries : List (String × Json) → String → DB → Nat →
    Except String (DB × Nat)
  | [], _, db, n => Except.ok (db, n)
  | e :: rest, sym, db, n => do
    let d ← entryData e
    stockEntries rest sym (upsertStock db sym d.1 d.2) (n + 1)

/-- A stock data file as seen by the loader: the stem of its filename and
the result of `load_json_file` (an `Except.error` is a parse failure). -/
structure StockFile where
  stem : String
  content : Except String Json

/-- `symbol = file_path.stem.split('_')[0]` (line 57): the characters of
the stem before its first underscore (the whole stem when it has none),
written with `takeWhile` so that concrete runs reduce inside the kernel. -/
def symbolOfStem (stem : String) : String :=
  String.mk (stem.toList.takeWhile (fun c => !(c == '_')))

/-- Processing of one file inside the per-file `try` (lines 60-81). -/
def processStockFile (f : StockFile) (sym : String) (db : DB) :
    Except String (DB × Nat) := do
  let data ← f.content
  let items ← pyItems data
  stockEntries items sym db 0

/-- The file loop of `load_stock_data` (lines 56-90): a failure inside one
file's `try` rolls the store back to the last commit, records the message
under `<symbol>_error`, and the loop continues; a success commits and
records the per-symbol count and the running total. -/
def processStockFiles : List StockFile → DB → Dict → DB × Dict
  | [], db, s => (db, s)
  | f :: rest, db, s =>
    let symbol := symbolOfStem f.stem
    match processStockFile f symbol db with
    | Except.ok r =>
        let s1 := dictSet s symbol (SVal.num r.2)
        let s2 := dictSet s1 "total" (SVal.num (dictGetNum s1 "total" + r.2))
        processStockFiles rest r.1 s2
    | Except.error e =>
        processStockFiles rest db (dictSet s (symbol ++ "_error") (SVal.msg e))

/-- `load_stock_data` (src/db/loaders/stock_loader.py lines 18-102).  The
directory is `none` when missing (the batch-level error return at line 35),
otherwise the list of `*_stock_data.json` files found by
`get_files_with_extension`.  An empty listing returns the warning summary of
line 54; nothing in the file loop can raise past the per-file handler, so
the outer `except` (lines 95-98) is unreachable. -/
def load_stock_data (db : DB) (dir? : Option (List StockFile)) : DB × Dict :=
  match dir? with
  | none =>
      (db, [("error", SVal.msg "Stock data directory not found"),
            ("loaded_count", SVal.num 0)])
  | some files =>
      if files.isEmpty then
        (db, [("warning", SVal.msg "No stock data files found"),
              ("loaded_count", SVal.num 0)])
      else
        processStockFiles files db [("total", SVal.num 0)]

/-! ### Derived views of the stocks table -/

/-- The value columns of the (by the UNIQUE constraint unique, in general
last-inserted) row for `(sym, date)`. -/
def stockView (db : DB) (sym date : String) : Option StockVals :=
  ((db.stocks.filter (fun r => r.symbol == sym && r.date == date)).getLast?).map
    (fun r => ⟨r.open_, r.high, r.low, r.close, r.adj_close, r.volume⟩)

/-- Number of `stocks` rows for one symbol. -/
def countStockSym (db : DB) (sym : String) : Nat :=
  (db.stocks.filter (fun r => r.symbol == sym)).length

/-- The `UNIQUE(symbol, date)` invariant: at most one row per key. -/
def StocksKeyUnique (db : DB) : Prop :=
  ∀ sym date : String,
    (db.stocks.filter (fun r => r.symbol == sym && r.date == date)).length ≤ 1

/-- The per-entry reads/bindings of a whole file, in file order; the date
loop `stockEntries` succeeds exactly when this does, and then applies one
upsert per element. -/
def entriesData : List (String × Json) → Except String (List (String × StockVals))
  | [] => Except.ok []
  | e :: rest => do
    let d ← entryData e
    let ds ← entriesData rest
    Except.ok (d :: ds)

/-- The sequence of upserts a successfully parsed file performs. -/
def foldUpserts (sym : String) : List (String × StockVals) → DB → DB
  | [], db => db
  | (d, v) :: rest, db => foldUpserts sym rest (upsertStock db sym d v)

/-- Last value bound to a date in an entry list (replace semantics make the
last occurrence win). -/
def lookupLast : List (String × StockVals) → String → Option StockVals
  | [], _ => none
  | (d, v) :: rest, d' =>
      match lookupLast rest d' with
      | some w => some w
      | none => if d == d' then some v else none

/-- Parse outcome of one stock file: `load_json_file`, `.items()`, and the
per-entry reads/bindings. -/
def fileEntriesData (f : StockFile) : Except String (List (String × StockVals)) := do
  let data ← f.content
  let items ← pyItems data
  entriesData items

/-- The summary key `load_stock_data` writes for a file: the symbol on
success, `<symbol>_error` on failure. -/
def outKey (f : StockFile) : String :=
  match fileEntriesData f with
  | Except.ok _ => symbolOfStem f.stem
  | Except.error _ => symbolOfStem f.stem ++ "_error"

/-- The summary value `load_stock_data` writes for a file: the record count
on success, the error message on failure. -/
def outVal (f : StockFile) : SVal :=
  match fileEntriesData f with
  | Except.ok ds => SVal.num ds.length
  | Except.error e => SVal.msg e

/-! ### The tweet loop under documented `cursor.lastrowid` semantics

The Python documentation states that `Cursor.lastrowid` "is only updated
after successful INSERT or REPLACE statements", and that "if the insertion
failed, the value of lastrowid is left unchanged"; a fresh cursor starts at
`None`.  The following variant of the tweet loop threads that cursor state:
every successful insert on the shared cursor (including the `stock_tweets`
link inserts) updates it, an ignored `INSERT OR IGNORE` leaves it alone, so
the `if not db_tweet_id` fallback SELECT of lines 85-95 can be bypassed by
a stale rowid.  The `tweets` table evolves exactly as in `processTweet`;
only link targets and summary counters can differ. -/

/-- The linking loop (lines 106-114) with the cursor's `lastrowid`
threaded: each successful `stock_tweets` insert updates it. -/
def linkTweetSymbolsCursor (smap : String → Option Nat) (db_tweet_id : Nat)
    (score : Scalar) :
    List String → DB → Dict → Option Nat → DB × Dict × Option Nat
  | [], db, s, cur => (db, s, cur)
  | sym :: rest, db, s, cur =>
    match smap sym with
    | some stock_id =>
        let newId := db.seq_stock_tweets + 1
        let db' : DB := { db with
          stock_tweets := db.stock_tweets ++ [⟨newId, stock_id, db_tweet_id, score⟩],
          seq_stock_tweets := newId }
        let s' := dictSet s "linked" (SVal.num (dictGetNum s "linked" + 1))
        linkTweetSymbolsCursor smap db_tweet_id score rest db' s' (some newId)
    | none => linkTweetSymbolsCursor smap db_tweet_id score rest db s cur

/-- One tweet iteration (lines 62-114) under documented `lastrowid`
semantics: an ignored insert leaves the cursor state unchanged, and a stale
`some` value bypasses the fallback SELECT. -/
def processTweetCursor (smap : String → Option Nat) (tweet : Json) (db : DB)
    (summary : Dict) (cur : Option Nat) :
    Except String (DB × Dict × Option Nat) := do
  let p ← tweetParams tweet
  let conflict := db.tweets.any (fun r => sqlEq r.tweet_id p.bId)
  let ins : DB × Option Nat :=
    if conflict then (db, cur)
    else
      let newId := db.seq_tweets + 1
      ({ db with
          tweets := db.tweets ++ [mkTweetRow newId p],
          seq_tweets := newId }, some newId)
  let db1 := ins.1
  let cur1 := ins.2
  let db_tweet_id? : Option Nat :=
    match cur1 with
    | some i => some i
    | none => (db1.tweets.find? (fun r => sqlEq r.tweet_id p.bId)).map TweetRow.id
  match db_tweet_id? with
  | none => Except.ok (db1, summary, cur1)
  | some db_tweet_id =>
      let summary1 := dictSet summary "total" (SVal.num (dictGetNum summary "total" + 1))
      let syms ← symbolsInText p.text
      Except.ok (linkTweetSymbolsCursor smap db_tweet_id (Scalar.n p.q) syms db1 summary1 cur1)

/-- The tweet loop under documented `lastrowid` semantics. -/
def processTweetsCursor (smap : String → Option Nat) :
    List Json → DB → Dict → Option Nat → Except String (DB × Dict × Option Nat)
  | [], db, s, cur => Except.ok (db, s, cur)
  | t :: rest, db, s, cur => do
    let r ← processTweetCursor smap t db s cur
    processTweetsCursor smap rest r.1 r.2.1 r.2.2

/-- `load_twitter_data` under documented `lastrowid` semantics: the call
creates a fresh cursor (`conn.cursor()`, line 47), whose `lastrowid` starts
as `None`. -/
def load_twitter_data_cursor (db : DB) (input : Json) : DB × Dict :=
  let smap := get_stock_symbols_map db
  let summary0 : Dict := [("total", SVal.num 0), ("linked", SVal.num 0)]
  let summary0 :=
    if db.stocks.isEmpty then
      dictSet summary0 "warning"
        (SVal.msg "No stocks found in database. Load stock data first.")
    else summary0
  match (do
      let items ← pyIter input
      processTweetsCursor smap items db summary0 none) with
  | Except.ok r => (r.1, r.2.1)
  | Except.error e => (db, [("error", SVal.msg e), ("loaded_count", SVal.num 0)])

/-! ### Concrete fixtures used by individual claims -/

/-- A store holding the single stock row `(1, AAPL, 2024-01-02, ...)`. -/
def dbAAPL : DB :=
  ⟨[⟨1, "AAPL", "2024-01-02", Scalar.n 10, Scalar.n 12, Scalar.n 9,
      Scalar.n 11, Scalar.n 11, Scalar.n 1000⟩], [], [], [], [], 1, 0, 0, 0, 0⟩

/-- A store holding AAPL (id 1) and MSFT (id 2) stock rows. -/
def dbAAPLMSFT : DB :=
  ⟨[⟨1, "AAPL", "2024-01-02", Scalar.n 10, Scalar.n 12, Scalar.n 9,
      Scalar.n 11, Scalar.n 11, Scalar.n 1000⟩,
    ⟨2, "MSFT", "2024-01-02", Scalar.n 20, Scalar.n 22, Scalar.n 19,
      Scalar.n 21, Scalar.n 21, Scalar.n 2000⟩], [], [], [], [],
    2, 0, 0, 0, 0⟩

/-- A valid one-day AAPL stock file. -/
def fileAAPL : StockFile :=
  ⟨"AAPL_stock_data", Except.ok (Json.obj [("2024-01-02", Json.obj
    [("Open", Json.num 10), ("High", Json.num 12), ("Low", Json.num 9),
     ("Close", Json.num 11), ("Adj Close", Json.num 11),
     ("Volume", Json.num 1000)])])⟩

/-- A stock file whose JSON fails to parse. -/
def fileBadMSFT : StockFile := ⟨"MSFT_stock_data", Except.error "JSONDecodeError"⟩

/-- A fully annotated news article mentioning AAPL. -/
def articleAppleSoars : Json :=
  Json.obj [("source", Json.str "X"),
    ("published_at", Json.str "2024-01-02T10:00:00"),
    ("title", Json.str "Apple soars"), ("description", Json.str "d"),
    ("url", Json.str "u"), ("symbols", Json.arr [Json.str "AAPL"]),
    ("sentiment", Json.obj [("compound", Json.num (mkRat 6 10))])]

/-- Number of `tweets` rows whose stored key is the TEXT value `v`. -/
def countTweetId (db : DB) (v : String) : Nat :=
  (db.tweets.filter (fun r => r.tweet_id == Scalar.s v)).length

/-- The natural-key invariant the UNIQUE constraint maintains: at most one
row per TEXT `tweet_id` value. -/
def TweetIdUnique (db : DB) : Prop :=
  ∀ v : String, countTweetId db v ≤ 1

/-- A tweet object the loop body processes without raising: its fields
extract and bind, and its `text` is a string (so the symbol scan works). -/
def ProcessableTweet (t : Json) : Prop :=
  ∃ p, tweetParams t = Except.ok p ∧ ∃ v, p.text = Json.str v

/-- A news row whose stored label is `get_sentiment_label` of its stored
numeric score. -/
def NewsLabelOk (r : NewsRow) : Prop :=
  ∃ q : Rat, r.sentiment_score = Scalar.n q ∧
    r.sentiment_label = Scalar.s (get_sentiment_label q)

/-- A tweet row whose stored label is `get_sentiment_label` of its stored
numeric score. -/
def TweetLabelOk (r : TweetRow) : Prop :=
  ∃ q : Rat, r.sentiment_score = Scalar.n q ∧
    r.sentiment_label = Scalar.s (get_sentiment_label q)

/-! ## Helper lemmas -/

theorem exbind_ok {α β : Type} {x : Except String α} {f : α → Except String β}
    {b : β} :
    (x >>= f = Except.ok b) ↔ ∃ a, x = Except.ok a ∧ f a = Except.ok b := by
  cases x <;> simp [Bind.bind, Except.bind]

theorem dictLookup_dictSet_self (d : Dict) (k : String) (v : SVal) :
    dictLookup (dictSet d k v) k = some v := by
  induction d with
  | nil => simp [dictSet, dictLookup]
  | cons kv rest ih =>
      by_cases h : kv.1 = k
      · simp [dictSet, dictLookup, h]
      · simp [dictSet, dictLookup, h, ih]

theorem dictLookup_dictSet_ne (d : Dict) {k k' : String} (v : SVal)
    (h : k' ≠ k) : dictLookup (dictSet d k v) k' = dictLookup d k' := by
  induction d with
  | nil => simp [dictSet, dictLookup, Ne.symm h]
  | cons kv rest ih =>
      by_cases hk : kv.1 = k
      · simp [dictSet, dictLookup, hk, Ne.symm h, h]
      · by_cases hk' : kv.1 = k' <;>
          simp [dictSet, dictLookup, hk, hk', ih, h]

/-- Inverting `labelOfQ`: a successful label computation pairs the numeric
score with exactly `get_sentiment_label` of it. -/
theorem labelOfQ_ok {j : Json} {ql : Rat × String}
    (h : labelOfQ j = Except.ok ql) : ql.2 = get_sentiment_label ql.1 := by
  cases j <;> simp [labelOfQ] at h
  subst h; rfl

/-- A successful `newsParams` has its label derived from its score. -/
theorem newsParams_label {a : Json} {p : NewsParams}
    (h : newsParams a = Except.ok p) : p.label = get_sentiment_label p.q := by
  simp only [newsParams, exbind_ok] at h
  obtain ⟨_, _, _, _, _, _, _, _, _, _, _, _, _, _, ql, hql, _, _, _, _, _,
    _, _, _, _, _, _, _, hp⟩ := h
  cases hp
  simpa using labelOfQ_ok hql

/-- A successful `tweetParams` has its label derived from its score. -/
theorem tweetParams_label {t : Json} {p : TweetParams}
    (h : tweetParams t = Except.ok p) : p.label = get_sentiment_label p.q := by
  simp only [tweetParams, exbind_ok] at h
  obtain ⟨_, _, _, _, _, _, _, _, _, _, _, _, _, _, _, _, ql, hql, _, _, _,
    _, _, _, _, _, _, _, hp⟩ := h
  cases hp
  simpa using labelOfQ_ok hql

/-- The news linking loop only appends `stock_news` rows: the other tables
are untouched. -/
theorem linkArticleSymbols_tables {smap : String → Option Nat} {nid : Nat}
    {sc : Scalar} : ∀ {syms : List Json} {db : DB} {s : Dict} {db' : DB}
    {s' : Dict}, linkArticleSymbols smap nid sc syms db s = Except.ok (db', s') →
    db'.news = db.news ∧ db'.tweets = db.tweets ∧ db'.stocks = db.stocks ∧
      db'.seq_news = db.seq_news := by
  intro syms
  induction syms with
  | nil =>
      intro db s db' s' h
      simp [linkArticleSymbols] at h
      simp [h.1]
  | cons sym rest ih =>
      intro db s db' s' h
      simp only [linkArticleSymbols, exbind_ok] at h
      obtain ⟨sid?, hsid, hrest⟩ := h
      cases sid? with
      | none => exact ih hrest
      | some stock_id =>
          have := ih hrest
          simpa using this

/-- The tweet linking loop only appends `stock_tweets` rows. -/
theorem linkTweetSymbols_tables (smap : String → Option Nat) (tid : Nat)
    (sc : Scalar) : ∀ (syms : List String) (db : DB) (s : Dict),
    (linkTweetSymbols smap tid sc syms db s).1.tweets = db.tweets ∧
      (linkTweetSymbols smap tid sc syms db s).1.news = db.news ∧
      (linkTweetSymbols smap tid sc syms db s).1.stocks = db.stocks ∧
      (linkTweetSymbols smap tid sc syms db s).1.seq_tweets = db.seq_tweets := by
  intro syms
  induction syms with
  | nil => intro db s; simp [linkTweetSymbols]
  | cons sym rest ih =>
      intro db s
      cases h : smap sym with
      | none => simpa [linkTweetSymbols, h] using ih _ _
      | some stock_id => simpa [linkTweetSymbols, h] using ih _ _

/-- Effect of one article iteration on the `news` table: a success always
appends exactly the row built from `newsParams` (the `news` table has no
UNIQUE constraint, so nothing is ever ignored), and leaves the other entity
tables alone. -/
theorem processArticle_ok {smap : String → Option Nat} {a : Json} {db : DB}
    {s : Dict} {db' : DB} {s' : Dict}
    (h : processArticle smap a db s = Except.ok (db', s')) :
    ∃ p, newsParams a = Except.ok p ∧
      db'.news = db.news ++ [mkNewsRow (db.seq_news + 1) p] ∧
      db'.tweets = db.tweets ∧ db'.stocks = db.stocks := by
  simp only [processArticle, exbind_ok] at h
  obtain ⟨p, hp, h⟩ := h
  obtain ⟨syms, hsyms, hlink⟩ := h
  obtain ⟨h1, h2, h3, _⟩ := linkArticleSymbols_tables hlink
  exact ⟨p, hp, by simp [h1], by simp [h2], by simp [h3]⟩

/-- Effect of one tweet iteration on the `tweets` table: on success either
the bound key conflicted with a stored row and the table is unchanged, or
the row built from `tweetParams` was appended; other entity tables are
untouched. -/
theorem processTweet_ok {smap : String → Option Nat} {t : Json} {db : DB}
    {s : Dict} {db' : DB} {s' : Dict}
    (h : processTweet smap t db s = Except.ok (db', s')) :
    ∃ p, tweetParams t = Except.ok p ∧
      ((db.tweets.any (fun r => sqlEq r.tweet_id p.bId) = true ∧
          db'.tweets = db.tweets) ∨
        (db.tweets.any (fun r => sqlEq r.tweet_id p.bId) = false ∧
          db'.tweets = db.tweets ++ [mkTweetRow (db.seq_tweets + 1) p])) ∧
      db'.news = db.news ∧ db'.stocks = db.stocks := by
  simp only [processTweet, exbind_ok] at h
  obtain ⟨p, hp, h⟩ := h
  refine ⟨p, hp, ?_⟩
  simp only [Bind.bind, Except.bind] at h
  cases hc : db.tweets.any (fun r => sqlEq r.tweet_id p.bId) with
  | true =>
      simp only [hc, if_true] at h
      cases hf : (db.tweets.find? (fun r => sqlEq r.tweet_id p.bId)).map
          TweetRow.id with
      | none =>
          simp only [hf, Except.ok.injEq, Prod.mk.injEq] at h
          obtain ⟨h1, _⟩ := h
          subst h1
          exact ⟨Or.inl ⟨rfl, rfl⟩, rfl, rfl⟩
      | some i =>
          simp only [hf] at h
          cases hsy : symbolsInText p.text with
          | error e => simp [hsy] at h
          | ok syms =>
              simp only [hsy, Except.ok.injEq] at h
              have hdb : db' = (linkTweetSymbols smap i (Scalar.n p.q) syms db
                  (dictSet s "total" (SVal.num (dictGetNum s "total" + 1)))).1 := by
                rw [h]
              obtain ⟨l1, l2, l3, _⟩ := linkTweetSymbols_tables
                smap i (Scalar.n p.q) syms db
                (dictSet s "total" (SVal.num (dictGetNum s "total" + 1)))
              rw [hdb]
              exact ⟨Or.inl ⟨rfl, l1⟩, l2, l3⟩
  | false =>
      simp only [hc, Bool.false_eq_true, if_false] at h
      cases hsy : symbolsInText p.text with
      | error e => simp [hsy] at h
      | ok syms =>
          simp only [hsy, Except.ok.injEq] at h
          have hdb : db' = (linkTweetSymbols smap (db.seq_tweets + 1)
              (Scalar.n p.q) syms
              { db with
                tweets := db.tweets ++ [mkTweetRow (db.seq_tweets + 1) p],
                seq_tweets := db.seq_tweets + 1 }
              (dictSet s "total" (SVal.num (dictGetNum s "total" + 1)))).1 := by
            rw [h]
          obtain ⟨l1, l2, l3, _⟩ := linkTweetSymbols_tables
            smap (db.seq_tweets + 1) (Scalar.n p.q) syms
            { db with
              tweets := db.tweets ++ [mkTweetRow (db.seq_tweets + 1) p],
              seq_tweets := db.seq_tweets + 1 }
            (dictSet s "total" (SVal.num (dictGetNum s "total" + 1)))
          rw [hdb]
          exact ⟨Or.inr ⟨rfl, l1⟩, l2, l3⟩

/-- Rows added to `news` by the article loop carry consistent labels. -/
theorem processArticles_news_mem {smap : String → Option Nat} :
    ∀ {items : List Json} {db : DB} {s : Dict} {db' : DB} {s' : Dict},
    processArticles smap items db s = Except.ok (db', s') →
    ∀ r ∈ db'.news, r ∈ db.news ∨ NewsLabelOk r := by
  intro items
  induction items with
  | nil =>
      intro db s db' s' h r hr
      simp only [processArticles, Except.ok.injEq, Prod.mk.injEq] at h
      obtain ⟨h1, _⟩ := h
      subst h1
      exact Or.inl hr
  | cons a rest ih =>
      intro db s db' s' h r hr
      simp only [processArticles, exbind_ok] at h
      obtain ⟨⟨db1, s1⟩, h1, h2⟩ := h
      rcases ih h2 r hr with hin | hok
      · obtain ⟨p, hp, hnews, _, _⟩ := processArticle_ok h1
        rw [hnews] at hin
        rcases List.mem_append.mp hin with hin' | hnew
        · exact Or.inl hin'
        · refine Or.inr ?_
          have hlab := newsParams_label hp
          simp only [List.mem_singleton] at hnew
          subst hnew
          exact ⟨p.q, rfl, by rw [mkNewsRow, hlab]⟩
      · exact Or.inr hok

/-- Rows added to `tweets` by the tweet loop carry consistent labels. -/
theorem processTweets_tweets_mem {smap : String → Option Nat} :
    ∀ {items : List Json} {db : DB} {s : Dict} {db' : DB} {s' : Dict},
    processTweets smap items db s = Except.ok (db', s') →
    ∀ r ∈ db'.tweets, r ∈ db.tweets ∨ TweetLabelOk r := by
  intro items
  induction items with
  | nil =>
      intro db s db' s' h r hr
      simp only [processTweets, Except.ok.injEq, Prod.mk.injEq] at h
      obtain ⟨h1, _⟩ := h
      subst h1
      exact Or.inl hr
  | cons t rest ih =>
      intro db s db' s' h r hr
      simp only [processTweets, exbind_ok] at h
      obtain ⟨⟨db1, s1⟩, h1, h2⟩ := h
      rcases ih h2 r hr with hin | hok
      · obtain ⟨p, hp, hstep, _, _⟩ := processTweet_ok h1
        rcases hstep with ⟨_, hsame⟩ | ⟨_, happ⟩
        · rw [hsame] at hin
          exact Or.inl hin
        · rw [happ] at hin
          rcases List.mem_append.mp hin with hin' | hnew
          · exact Or.inl hin'
          · refine Or.inr ?_
            have hlab := tweetParams_label hp
            simp only [List.mem_singleton] at hnew
            subst hnew
            exact ⟨p.q, rfl, by rw [mkTweetRow, hlab]⟩
      · exact Or.inr hok

/-- Rows of the `news` table after `load_news_data` either predate the call
or carry consistent labels (an exception rolls the whole call back). -/
theorem load_news_label_inv (db : DB) (input : Json) :
    ∀ r ∈ (load_news_data db input).1.news, r ∈ db.news ∨ NewsLabelOk r := by
  intro r hr
  unfold load_news_data at hr
  simp only [Bind.bind, Except.bind] at hr
  cases hi : pyIter input with
  | error e => rw [hi] at hr; exact Or.inl hr
  | ok items =>
      rw [hi] at hr
      dsimp only at hr
      cases hp : processArticles (get_stock_symbols_map db) items db
          (if db.stocks.isEmpty then
            dictSet [("total", SVal.num 0), ("linked", SVal.num 0)] "warning"
              (SVal.msg "No stocks found in database. Load stock data first.")
          else [("total", SVal.num 0), ("linked", SVal.num 0)]) with
      | error e => rw [hp] at hr; exact Or.inl hr
      | ok out =>
          rw [hp] at hr
          exact processArticles_news_mem hp r hr

/-- Rows of the `tweets` table after `load_twitter_data` either predate the
call or carry consistent labels. -/
theorem load_twitter_label_inv (db : DB) (input : Json) :
    ∀ r ∈ (load_twitter_data db input).1.tweets, r ∈ db.tweets ∨ TweetLabelOk r := by
  intro r hr
  unfold load_twitter_data at hr
  simp only [Bind.bind, Except.bind] at hr
  cases hi : pyIter input with
  | error e => rw [hi] at hr; exact Or.inl hr
  | ok items =>
      rw [hi] at hr
      dsimp only at hr
      cases hp : processTweets (get_stock_symbols_map db) items db
          (if db.stocks.isEmpty then
            dictSet [("total", SVal.num 0), ("linked", SVal.num 0)] "warning"
              (SVal.msg "No stocks found in database. Load stock data first.")
          else [("total", SVal.num 0), ("linked", SVal.num 0)]) with
      | error e => rw [hp] at hr; exact Or.inl hr
      | ok out =>
          rw [hp] at hr
          exact processTweets_tweets_mem hp r hr

/-! ## Claim theorems -/

/-- C3: `get_sentiment_label` returns `positive` iff the score is at least
`0.05`, `negative` iff it is at most `-0.05`, and `neutral` otherwise,
including exactly at the two boundary values; and every news or tweet row
produced by a loader call stores the label computed by this function from
its stored `sentiment_score`. -/
theorem C3_sentiment_label_correct :
    (∀ s : Rat,
      (get_sentiment_label s = "positive" ↔ POSITIVE_THRESHOLD ≤ s) ∧
      (get_sentiment_label s = "negative" ↔ s ≤ NEGATIVE_THRESHOLD) ∧
      (get_sentiment_label s = "neutral" ↔
        NEGATIVE_THRESHOLD < s ∧ s < POSITIVE_THRESHOLD)) ∧
    get_sentiment_label (5 / 100) = "positive" ∧
    get_sentiment_label (-5 / 100) = "negative" ∧
    (∀ (db : DB) (input : Json), ∀ r ∈ (load_news_data db input).1.news,
      r ∈ db.news ∨ NewsLabelOk r) ∧
    (∀ (db : DB) (input : Json), ∀ r ∈ (load_twitter_data db input).1.tweets,
      r ∈ db.tweets ∨ TweetLabelOk r) := by
  have hpos : POSITIVE_THRESHOLD = 5 / 100 := by
    norm_num [POSITIVE_THRESHOLD, Rat.mkRat_eq_div]
  have hneg : NEGATIVE_THRESHOLD = -5 / 100 := by
    norm_num [NEGATIVE_THRESHOLD, Rat.mkRat_eq_div]
  have hlt : NEGATIVE_THRESHOLD < POSITIVE_THRESHOLD := by
    rw [hpos, hneg]; norm_num
  refine ⟨?_,
    by rw [← hpos]; simp [get_sentiment_label],
    by rw [← hneg]; simp [get_sentiment_label, hlt.not_le, le_refl],
    ?_, ?_⟩
  · intro s
    unfold get_sentiment_label
    split_ifs with h1 h2
    · exact ⟨iff_of_true rfl h1,
        iff_of_false (by decide)
          (fun h => absurd h1 (not_le.mpr (lt_of_le_of_lt h hlt))),
        iff_of_false (by decide) (fun h => absurd h1 (not_le.mpr h.2))⟩
    · exact ⟨iff_of_false (by decide) h1, iff_of_true rfl h2,
        iff_of_false (by decide) (fun h => absurd h2 (not_le.mpr h.1))⟩
    · exact ⟨iff_of_false (by decide) h1, iff_of_false (by decide) h2,
        iff_of_true rfl ⟨not_le.mp h2, not_le.mp h1⟩⟩
  · intro db input
    exact load_news_label_inv db input
  · intro db input
    exact load_twitter_label_inv db input

theorem C3_sentiment_label_correct_witness :
    get_sentiment_label (5 / 100) = "positive" ∧
    NewsLabelOk ⟨1, Scalar.s "Unknown", Scalar.s "", Scalar.s "Apple soars",
      Scalar.s "", Scalar.s "", Scalar.n (mkRat 6 10), Scalar.s "positive"⟩ := by
  constructor
  · exact (C3_sentiment_label_correct.1 (5 / 100)).1.mpr (by norm_num [POSITIVE_THRESHOLD])
  · refine (C3_sentiment_label_correct.2.2.2.1 emptyDB
      (Json.arr [Json.obj [("title", Json.str "Apple soars"),
        ("sentiment", Json.obj [("compound", Json.num (mkRat 6 10))])]])
      ⟨1, Scalar.s "Unknown", Scalar.s "", Scalar.s "Apple soars",
        Scalar.s "", Scalar.s "", Scalar.n (mkRat 6 10), Scalar.s "positive"⟩
      (by decide)).resolve_left (by simp [emptyDB])

/-- C8: `SentimentAnalyzer.analyze_text` is total: on empty or non-string
input it returns exactly the neutral default scores together with the error
marker, and when the underlying scorer raises it returns the neutral
default with that error as the marker. -/
theorem C8_analyze_text_never_raises :
    ∀ (polarity : String → Except String Scores) (text : Json),
      (missingOrNotString text = true →
        analyze_text polarity text =
          AnalyzeResult.scoresWithError neutralScores
            "Input text is missing or not a string") ∧
      (∀ v e, text = Json.str v → v ≠ "" → polarity v = Except.error e →
        analyze_text polarity text =
          AnalyzeResult.scoresWithError neutralScores e) := by
  intro polarity text
  constructor
  · intro h
    cases text <;> simp_all [analyze_text, missingOrNotString]
  · intro v e ht hv hp
    subst ht
    simp [analyze_text, hv, hp]

theorem C8_analyze_text_never_raises_witness :
    analyze_text (fun _ => Except.error "boom") Json.null =
      AnalyzeResult.scoresWithError neutralScores
        "Input text is missing or not a string" ∧
    analyze_text (fun _ => Except.error "boom") (Json.str "hello") =
      AnalyzeResult.scoresWithError neutralScores "boom" :=
  ⟨(C8_analyze_text_never_raises (fun _ => Except.error "boom") Json.null).1
      (by decide),
   (C8_analyze_text_never_raises (fun _ => Except.error "boom")
      (Json.str "hello")).2 "hello" "boom" rfl (by decide) rfl⟩

/-- C1: the spec claims that re-loading an identical news article leaves the
news table at one row and adds no second stock_news link.  The code violates
this: the `news` table declares no UNIQUE constraint, so `INSERT OR IGNORE`
never ignores anything — a second identical load adds a second news row with
the same `(headline, datetime)` and a second stock_news link row. -/
theorem C1_duplicate_news_inserted :
    ((load_news_data (load_news_data dbAAPL (Json.arr [articleAppleSoars])).1
        (Json.arr [articleAppleSoars])).1.news.length = 2) ∧
    ((load_news_data (load_news_data dbAAPL (Json.arr [articleAppleSoars])).1
        (Json.arr [articleAppleSoars])).1.news.map
          (fun r => (r.headline, r.datetime)) =
        [(Scalar.s "Apple soars", Scalar.s "2024-01-02T10:00:00"),
         (Scalar.s "Apple soars", Scalar.s "2024-01-02T10:00:00")]) ∧
    ((load_news_data (load_news_data dbAAPL (Json.arr [articleAppleSoars])).1
        (Json.arr [articleAppleSoars])).1.stock_news.length = 2) := by
  decide

/-- C5 counterexample: the `{"data": [...]}` envelope is not unwrapped by
`load_news_data`.  Iterating the dict yields the key string `"data"`, whose
`.get` raises `AttributeError`; the call returns the error summary and loads
nothing, while the bare-list form of the same article is loaded. -/
theorem C5_envelope_is_error :
    ((load_news_data emptyDB
        (Json.arr [Json.obj [("title", Json.str "t")]])).1.news.length = 1) ∧
    ((load_news_data emptyDB
        (Json.obj [("data",
          Json.arr [Json.obj [("title", Json.str "t")]])])).1.news.length = 0) ∧
    (load_news_data emptyDB
        (Json.obj [("data", Json.arr [Json.obj [("title", Json.str "t")]])])).2 =
      [("error", SVal.msg "AttributeError"), ("loaded_count", SVal.num 0)] := by
  decide

/-- C5 amended: `load_news_data` accepts only the bare-list shape.  Handed
any non-empty JSON object (in particular the `{"data": [...]}` envelope),
the loop iterates the object's keys, the first key string raises
`AttributeError` at `article.get`, the transaction is rolled back, and the
error summary is returned with the store unchanged; envelope unwrapping
happens upstream (`src/scripts/perform_sentiment_analysis.py`), not in the
loader. -/
theorem C5_amended_envelope_rejected (db : DB)
    (fields : List (String × Json)) (h : fields ≠ []) :
    load_news_data db (Json.obj fields) =
      (db, [("error", SVal.msg "AttributeError"), ("loaded_count", SVal.num 0)]) := by
  match fields, h with
  | kv :: rest, _ =>
    simp [load_news_data, pyIter, processArticles, processArticle, newsParams,
      Json.get, Bind.bind, Except.bind]

theorem C5_amended_envelope_rejected_witness :
    ([("data", Json.arr [Json.obj [("title", Json.str "t")]])] : List (String × Json)) ≠ [] ∧
    load_news_data emptyDB
        (Json.obj [("data", Json.arr [Json.obj [("title", Json.str "t")]])]) =
      (emptyDB, [("error", SVal.msg "AttributeError"), ("loaded_count", SVal.num 0)]) :=
  ⟨by simp,
   C5_amended_envelope_rejected emptyDB
     [("data", Json.arr [Json.obj [("title", Json.str "t")]])] (by simp)⟩

/-- C6 counterexample: two articles with very different texts, both without
a sentiment annotation, are stored with the same fixed default score `0` and
label `neutral` — `load_news_data` computes no sentiment from the text (the
scores are computed upstream, before loading). -/
theorem C6_unannotated_stored_default :
    ((load_news_data emptyDB
        (Json.arr [Json.obj [("title", Json.str "great wonderful gains")],
          Json.obj [("title", Json.str "terrible awful crash")]])).1.news.map
        NewsRow.sentiment_score = [Scalar.n 0, Scalar.n 0]) ∧
    ((load_news_data emptyDB
        (Json.arr [Json.obj [("title", Json.str "great wonderful gains")],
          Json.obj [("title", Json.str "terrible awful crash")]])).1.news.map
        NewsRow.sentiment_label =
      [Scalar.s "neutral", Scalar.s "neutral"]) := by
  decide

/-- C6 amended: an article carrying no `sentiment` key is inserted with the
fixed default `sentiment_score = 0` (hence label `neutral`), regardless of
its text: `article.get('sentiment', {})` yields the empty dict and
`.get('compound', 0)` the constant `0`. -/
theorem C6_amended_default_zero (fields : List (String × Json)) (p : NewsParams)
    (hno : fields.find? (fun kv => kv.1 == "sentiment") = none)
    (h : newsParams (Json.obj fields) = Except.ok p) :
    p.q = 0 ∧ p.label = "neutral" := by
  simp only [newsParams, Json.get, Bind.bind, Except.bind] at h
  rw [show objGet fields "sentiment" (Json.obj []) = Json.obj [] from by
    simp [objGet, hno]] at h
  dsimp only at h
  rw [show (objGet [] "compound" (Json.num 0)) = Json.num 0 from rfl] at h
  rw [show labelOfQ (Json.num 0) =
    Except.ok ((0 : Rat), get_sentiment_label 0) from rfl] at h
  dsimp only at h
  cases hb1 : bindScalar (objGet fields "source" (Json.str "Unknown")) with
  | error e => simp [hb1] at h
  | ok b1 =>
  rw [hb1] at h
  dsimp only at h
  cases hb2 : bindScalar (objGet fields "published_at" (Json.str "")) with
  | error e => simp [hb2] at h
  | ok b2 =>
  rw [hb2] at h
  dsimp only at h
  cases hb3 : bindScalar (objGet fields "title" (Json.str "")) with
  | error e => simp [hb3] at h
  | ok b3 =>
  rw [hb3] at h
  dsimp only at h
  cases hb4 : bindScalar (objGet fields "description" (Json.str "")) with
  | error e => simp [hb4] at h
  | ok b4 =>
  rw [hb4] at h
  dsimp only at h
  cases hb5 : bindScalar (objGet fields "url" (Json.str "")) with
  | error e => simp [hb5] at h
  | ok b5 =>
  rw [hb5] at h
  dsimp only at h
  simp only [Except.ok.injEq] at h
  subst h
  refine ⟨rfl, ?_⟩
  show get_sentiment_label 0 = "neutral"
  decide

theorem C6_amended_default_zero_witness :
    (([("title", Json.str "great wonderful gains")] :
        List (String × Json)).find? (fun kv => kv.1 == "sentiment") = none) ∧
    ∃ p, newsParams (Json.obj [("title", Json.str "great wonderful gains")]) =
        Except.ok p ∧ p.q = 0 ∧ p.label = "neutral" := by
  refine ⟨rfl, ?_⟩
  have h : newsParams (Json.obj [("title", Json.str "great wonderful gains")]) =
      Except.ok ⟨Scalar.s "Unknown", Scalar.s "",
        Scalar.s "great wonderful gains", Scalar.s "", Scalar.s "", 0,
        get_sentiment_label 0, Json.arr []⟩ := rfl
  exact ⟨_, h, C6_amended_default_zero
    [("title", Json.str "great wonderful gains")] _ rfl h⟩

/-- C7 counterexample: a tweet whose only identifier field is `tweet_id`
(the first of the two names the spec's file contract allows) is stored with
the empty-string key, not with its identifier: the loader reads `id_str`
only. -/
theorem C7_tweet_id_field_ignored :
    ((load_twitter_data emptyDB
        (Json.arr [Json.obj [("tweet_id", Json.str "123"),
          ("text", Json.str "hi")]])).1.tweets.map TweetRow.tweet_id) =
      [Scalar.s ""] := by
  decide

/-- A tweet object without an `id_str` key binds the empty-string natural
key (`tweet.get('id_str', '')`). -/
theorem tweetParams_no_idstr (fields : List (String × Json)) (p : TweetParams)
    (hno : fields.find? (fun kv => kv.1 == "id_str") = none)
    (h : tweetParams (Json.obj fields) = Except.ok p) :
    p.bId = Scalar.s "" := by
  simp only [tweetParams, Json.get, Bind.bind, Except.bind] at h
  rw [show objGet fields "id_str" (Json.str "") = Json.str "" from by
    simp [objGet, hno]] at h
  cases hu : objGet fields "user" (Json.obj []) with
  | obj ufs =>
    rw [hu] at h
    dsimp only at h
    cases hs : objGet fields "sentiment" (Json.obj []) with
    | obj sfs =>
      rw [hs] at h
      dsimp only at h
      cases hql : labelOfQ (objGet sfs "compound" (Json.num 0)) with
      | error e => simp [hql] at h
      | ok ql =>
      rw [hql] at h
      dsimp only at h
      rw [show bindScalar (Json.str "") = Except.ok (Scalar.s "") from rfl] at h
      dsimp only at h
      cases hb2 : bindScalar (objGet ufs "name" (Json.str "")) with
      | error e => simp [hb2] at h
      | ok b2 =>
      rw [hb2] at h
      dsimp only at h
      cases hb3 : bindScalar (objGet ufs "screen_name" (Json.str "")) with
      | error e => simp [hb3] at h
      | ok b3 =>
      rw [hb3] at h
      dsimp only at h
      cases hb4 : bindScalar (objGet fields "created_at" (Json.str "")) with
      | error e => simp [hb4] at h
      | ok b4 =>
      rw [hb4] at h
      dsimp only at h
      cases hb5 : bindScalar (objGet fields "text" (Json.str "")) with
      | error e => simp [hb5] at h
      | ok b5 =>
      rw [hb5] at h
      dsimp only at h
      simp only [Except.ok.injEq] at h
      subst h
      rfl
    | null => simp [hs] at h
    | str a => simp [hs] at h
    | num a => simp [hs] at h
    | arr a => simp [hs] at h
  | null => simp [hu] at h
  | str a => simp [hu] at h
  | num a => simp [hu] at h
  | arr a => simp [hu] at h


/-- C7 amended: `load_twitter_data` reads the natural key from `id_str`
alone with `''` as the default; a `tweet_id` field is ignored, so a tweet
carrying only `tweet_id` is keyed by the empty string, not by its
identifier. -/
theorem C7_amended_only_id_str (fields : List (String × Json))
    (p : TweetParams) (v : String)
    (hno : fields.find? (fun kv => kv.1 == "id_str") = none)
    (_hmem : ("tweet_id", Json.str v) ∈ fields) (hv : v ≠ "")
    (h : tweetParams (Json.obj fields) = Except.ok p) :
    p.bId = Scalar.s "" ∧ p.bId ≠ Scalar.s v := by
  have hb := tweetParams_no_idstr fields p hno h
  exact ⟨hb, by rw [hb]; exact fun hEq => hv (Scalar.s.inj hEq).symm⟩

theorem C7_amended_only_id_str_witness :
    (([("tweet_id", Json.str "123"), ("text", Json.str "hi")] :
        List (String × Json)).find? (fun kv => kv.1 == "id_str") = none) ∧
    ∃ p, tweetParams (Json.obj [("tweet_id", Json.str "123"),
        ("text", Json.str "hi")]) = Except.ok p ∧
      p.bId = Scalar.s "" ∧ p.bId ≠ Scalar.s "123" := by
  refine ⟨rfl, ?_⟩
  have h : tweetParams (Json.obj [("tweet_id", Json.str "123"),
      ("text", Json.str "hi")]) =
      Except.ok ⟨Scalar.s "", Scalar.s "", Scalar.s "", Scalar.s "",
        Scalar.s "hi", 0, get_sentiment_label 0, Json.str "hi"⟩ := rfl
  exact ⟨_, h, C7_amended_only_id_str
    [("tweet_id", Json.str "123"), ("text", Json.str "hi")] _ "123" rfl
    (by simp) (by decide) h⟩

/-- SQL equality against a TEXT value coincides with value equality. -/
theorem sqlEq_s_iff {x : Scalar} {v : String} :
    sqlEq x (Scalar.s v) = true ↔ x = Scalar.s v := by
  cases x <;> simp [sqlEq]

/-- One tweet iteration never removes key-`v` rows and never pushes their
count above `max previous 1`. -/
theorem processTweet_count {smap : String → Option Nat} {t : Json} {db : DB}
    {s : Dict} {db' : DB} {s' : Dict}
    (h : processTweet smap t db s = Except.ok (db', s')) (v : String) :
    countTweetId db v ≤ countTweetId db' v ∧
      countTweetId db' v ≤ max (countTweetId db v) 1 := by
  obtain ⟨p, hp, hstep, _, _⟩ := processTweet_ok h
  rcases hstep with ⟨_, hsame⟩ | ⟨hnoc, happ⟩
  · rw [countTweetId, countTweetId, hsame]
    exact ⟨le_refl _, le_max_left _ _⟩
  · rw [countTweetId, countTweetId, happ, List.filter_append,
      List.length_append]
    by_cases hb : (mkTweetRow (db.seq_tweets + 1) p).tweet_id = Scalar.s v
    · have hzero : (db.tweets.filter
          (fun r => r.tweet_id == Scalar.s v)).length = 0 := by
        rw [List.length_eq_zero, List.filter_eq_nil_iff]
        intro r hr hmatch
        have hrid : r.tweet_id = Scalar.s v := by simpa using hmatch
        have hbid : p.bId = Scalar.s v := hb
        have hany : db.tweets.any (fun r => sqlEq r.tweet_id p.bId) = true := by
          rw [List.any_eq_true]
          refine ⟨r, hr, ?_⟩
          rw [hrid, hbid]
          exact sqlEq_s_iff.mpr rfl
        rw [hany] at hnoc
        cases hnoc
      rw [hzero]
      simp [hb]
    · have hone : (([mkTweetRow (db.seq_tweets + 1) p].filter
          (fun r => r.tweet_id == Scalar.s v))).length = 0 := by
        simp [hb]
      rw [hone]
      exact ⟨Nat.le_add_right _ _, by simp [le_max_left]⟩

/-- Folding the tweet loop keeps the two count bounds. -/
theorem processTweets_count {smap : String → Option Nat} :
    ∀ {items : List Json} {db : DB} {s : Dict} {db' : DB} {s' : Dict},
    processTweets smap items db s = Except.ok (db', s') → ∀ v : String,
    countTweetId db v ≤ countTweetId db' v ∧
      countTweetId db' v ≤ max (countTweetId db v) 1 := by
  intro items
  induction items with
  | nil =>
      intro db s db' s' h v
      simp only [processTweets, Except.ok.injEq, Prod.mk.injEq] at h
      obtain ⟨h1, _⟩ := h
      subst h1
      exact ⟨le_refl _, le_max_left _ _⟩
  | cons t rest ih =>
      intro db s db' s' h v
      simp only [processTweets, exbind_ok] at h
      obtain ⟨⟨db1, s1⟩, h1, h2⟩ := h
      obtain ⟨m1, b1⟩ := processTweet_count h1 v
      obtain ⟨m2, b2⟩ := ih h2 v
      refine ⟨le_trans m1 m2, le_trans b2 ?_⟩
      calc max (countTweetId db1 v) 1
          ≤ max (max (countTweetId db v) 1) 1 := max_le_max b1 (le_refl 1)
        _ = max (countTweetId db v) 1 := max_eq_left (le_max_right _ _)

/-- After successfully processing a tweet whose bound key is the TEXT value
`v`, a key-`v` row exists. -/
theorem processTweet_exists {smap : String → Option Nat} {t : Json} {db : DB}
    {s : Dict} {db' : DB} {s' : Dict} {p : TweetParams} {v : String}
    (h : processTweet smap t db s = Except.ok (db', s'))
    (hp : tweetParams t = Except.ok p) (hbv : p.bId = Scalar.s v) :
    1 ≤ countTweetId db' v := by
  obtain ⟨p', hp', hstep, _, _⟩ := processTweet_ok h
  rw [hp] at hp'
  injection hp' with hpp
  subst hpp
  rcases hstep with ⟨hconf, hsame⟩ | ⟨_, happ⟩
  · rw [countTweetId, hsame]
    rw [List.any_eq_true] at hconf
    obtain ⟨r, hr, hmatch⟩ := hconf
    rw [hbv] at hmatch
    have : r.tweet_id = Scalar.s v := sqlEq_s_iff.mp hmatch
    have hmem : r ∈ db.tweets.filter (fun r => r.tweet_id == Scalar.s v) := by
      rw [List.mem_filter]
      exact ⟨hr, by simp [this]⟩
    exact List.length_pos.mpr (List.ne_nil_of_mem hmem)
  · rw [countTweetId, happ, List.filter_append, List.length_append]
    have : ([mkTweetRow (db.seq_tweets + 1) p].filter
        (fun r => r.tweet_id == Scalar.s v)).length = 1 := by
      simp [mkTweetRow, hbv]
    omega

/-- Existence propagates through the tweet loop. -/
theorem processTweets_exists {smap : String → Option Nat} :
    ∀ {items : List Json} {db : DB} {s : Dict} {db' : DB} {s' : Dict},
    processTweets smap items db s = Except.ok (db', s') →
    ∀ {t : Json} {p : TweetParams} {v : String}, t ∈ items →
    tweetParams t = Except.ok p → p.bId = Scalar.s v →
    1 ≤ countTweetId db' v := by
  intro items
  induction items with
  | nil =>
      intro db s db' s' _ t p v ht
      cases ht
  | cons t0 rest ih =>
      intro db s db' s' h t p v ht hp hbv
      simp only [processTweets, exbind_ok] at h
      obtain ⟨⟨db1, s1⟩, h1, h2⟩ := h
      rcases List.mem_cons.mp ht with rfl | hmem
      · have h1ex := processTweet_exists h1 hp hbv
        exact le_trans h1ex (processTweets_count h2 v).1
      · exact ih h2 hmem hp hbv

/-- A processable tweet never aborts the loop body. -/
theorem processTweet_proc_ok (smap : String → Option Nat) {t : Json}
    (hpt : ProcessableTweet t) (db : DB) (s : Dict) :
    ∃ out, processTweet smap t db s = Except.ok out := by
  obtain ⟨p, hp, vt, hvt⟩ := hpt
  simp only [processTweet, hp, Bind.bind, Except.bind]
  cases hc : db.tweets.any (fun r => sqlEq r.tweet_id p.bId) with
  | true =>
      simp only [hc, if_true]
      cases hf : (db.tweets.find? (fun r => sqlEq r.tweet_id p.bId)).map
          TweetRow.id with
      | none => exact ⟨_, rfl⟩
      | some i =>
          rw [hvt]
          exact ⟨_, rfl⟩
  | false =>
      simp only [hc, Bool.false_eq_true, if_false]
      rw [hvt]
      exact ⟨_, rfl⟩

/-- A list of processable tweets loads without abort. -/
theorem processTweets_proc_ok (smap : String → Option Nat) :
    ∀ {items : List Json}, (∀ t ∈ items, ProcessableTweet t) →
    ∀ (db : DB) (s : Dict), ∃ out, processTweets smap items db s = Except.ok out := by
  intro items
  induction items with
  | nil => intro _ db s; exact ⟨(db, s), rfl⟩
  | cons t rest ih =>
      intro hall db s
      obtain ⟨out1, hout1⟩ := processTweet_proc_ok smap
        (hall t (List.mem_cons_self t rest)) db s
      obtain ⟨out2, hout2⟩ := ih (fun u hu => hall u (List.mem_cons_of_mem t hu))
        out1.1 out1.2
      exact ⟨out2, by simp only [processTweets, exbind_ok]; exact ⟨out1, hout1, hout2⟩⟩

/-- `load_twitter_data` never removes key-`v` tweet rows (a failed load
rolls back to the entry state). -/
theorem load_twitter_count_mono (db : DB) (input : Json) (v : String) :
    countTweetId db v ≤ countTweetId (load_twitter_data db input).1 v := by
  unfold load_twitter_data
  simp only [Bind.bind, Except.bind]
  cases hi : pyIter input with
  | error e => exact le_refl _
  | ok items =>
      dsimp only
      cases hp : processTweets (get_stock_symbols_map db) items db
          (if db.stocks.isEmpty then
            dictSet [("total", SVal.num 0), ("linked", SVal.num 0)] "warning"
              (SVal.msg "No stocks found in database. Load stock data first.")
          else [("total", SVal.num 0), ("linked", SVal.num 0)]) with
      | error e => exact le_refl _
      | ok out =>
          obtain ⟨db', s'⟩ := out
          exact (processTweets_count hp v).1

/-- One `load_twitter_data` call leaves at most `max previous 1` rows for
any TEXT key. -/
theorem load_twitter_count_bound (db : DB) (input : Json) (v : String) :
    countTweetId (load_twitter_data db input).1 v ≤
      max (countTweetId db v) 1 := by
  unfold load_twitter_data
  simp only [Bind.bind, Except.bind]
  cases hi : pyIter input with
  | error e => exact le_max_left _ _
  | ok items =>
      dsimp only
      cases hp : processTweets (get_stock_symbols_map db) items db
          (if db.stocks.isEmpty then
            dictSet [("total", SVal.num 0), ("linked", SVal.num 0)] "warning"
              (SVal.msg "No stocks found in database. Load stock data first.")
          else [("total", SVal.num 0), ("linked", SVal.num 0)]) with
      | error e => exact le_max_left _ _
      | ok out =>
          obtain ⟨db', s'⟩ := out
          exact (processTweets_count hp v).2

/-- Loading a list of processable tweets containing key `v` leaves at least
one key-`v` row. -/
theorem load_twitter_arr_exists (db : DB) (items : List Json) (v : String)
    (hall : ∀ t ∈ items, ProcessableTweet t)
    (hv : ∃ t ∈ items, ∃ p, tweetParams t = Except.ok p ∧ p.bId = Scalar.s v) :
    1 ≤ countTweetId (load_twitter_data db (Json.arr items)).1 v := by
  unfold load_twitter_data
  simp only [Bind.bind, Except.bind]
  dsimp only [pyIter]
  obtain ⟨⟨db', s'⟩, hout⟩ := processTweets_proc_ok
    (get_stock_symbols_map db) hall db
    (if db.stocks.isEmpty then
      dictSet [("total", SVal.num 0), ("linked", SVal.num 0)] "warning"
        (SVal.msg "No stocks found in database. Load stock data first.")
    else [("total", SVal.num 0), ("linked", SVal.num 0)])
  rw [hout]
  obtain ⟨t, ht, p, hp, hbv⟩ := hv
  exact processTweets_exists hout ht hp hbv

/-- Two successive tweet loads of processable inputs leave exactly one row
for any TEXT key occurring in the inputs, provided the initial store already
satisfies the natural-key invariant. -/
theorem twice_load_count_one (db0 : DB) (i1 i2 : List Json) (v : String)
    (hinv : TweetIdUnique db0)
    (h1 : ∀ t ∈ i1, ProcessableTweet t) (h2 : ∀ t ∈ i2, ProcessableTweet t)
    (hv : (∃ t ∈ i1, ∃ p, tweetParams t = Except.ok p ∧ p.bId = Scalar.s v) ∨
      (∃ t ∈ i2, ∃ p, tweetParams t = Except.ok p ∧ p.bId = Scalar.s v)) :
    countTweetId (load_twitter_data (load_twitter_data db0 (Json.arr i1)).1
      (Json.arr i2)).1 v = 1 := by
  have hb1 := load_twitter_count_bound db0 (Json.arr i1) v
  have hb2 := load_twitter_count_bound
    (load_twitter_data db0 (Json.arr i1)).1 (Json.arr i2) v
  have hupper : countTweetId (load_twitter_data
      (load_twitter_data db0 (Json.arr i1)).1 (Json.arr i2)).1 v ≤ 1 := by
    have h01 : max (countTweetId db0 v) 1 = 1 := max_eq_right (hinv v)
    calc countTweetId (load_twitter_data
          (load_twitter_data db0 (Json.arr i1)).1 (Json.arr i2)).1 v
        ≤ max (countTweetId (load_twitter_data db0 (Json.arr i1)).1 v) 1 := hb2
      _ ≤ max (max (countTweetId db0 v) 1) 1 := max_le_max hb1 (le_refl 1)
      _ = 1 := by rw [h01, max_self]
  have hlower : 1 ≤ countTweetId (load_twitter_data
      (load_twitter_data db0 (Json.arr i1)).1 (Json.arr i2)).1 v := by
    rcases hv with ⟨t, ht, p, hp, hbv⟩ | ⟨t, ht, p, hp, hbv⟩
    · exact le_trans
        (load_twitter_arr_exists db0 i1 v h1 ⟨t, ht, p, hp, hbv⟩)
        (load_twitter_count_mono _ (Json.arr i2) v)
    · exact load_twitter_arr_exists _ i2 v h2 ⟨t, ht, p, hp, hbv⟩
  exact le_antisymm hupper hlower

/-- C4: across any two `load_twitter_data` calls over processable inputs in
which some tweet binds the TEXT key `v`, the tweets table ends with exactly
one row whose `tweet_id` equals `v`: the UNIQUE constraint plus
insert-or-ignore plus the SELECT-by-key fallback keep at most one row per
natural key, and the occurrence guarantees at least one. -/
theorem C4_tweet_id_at_most_once (db0 : DB) (i1 i2 : List Json) (v : String)
    (hinv : TweetIdUnique db0)
    (h1 : ∀ t ∈ i1, ProcessableTweet t) (h2 : ∀ t ∈ i2, ProcessableTweet t)
    (hv : ∃ t ∈ i1 ++ i2, ∃ p, tweetParams t = Except.ok p ∧
      p.bId = Scalar.s v) :
    countTweetId (load_twitter_data (load_twitter_data db0 (Json.arr i1)).1
      (Json.arr i2)).1 v = 1 := by
  refine twice_load_count_one db0 i1 i2 v hinv h1 h2 ?_
  obtain ⟨t, ht, hp⟩ := hv
  rcases List.mem_append.mp ht with hm | hm
  · exact Or.inl ⟨t, hm, hp⟩
  · exact Or.inr ⟨t, hm, hp⟩

theorem C4_tweet_id_at_most_once_witness :
    countTweetId (load_twitter_data (load_twitter_data emptyDB
      (Json.arr [Json.obj [("id_str", Json.str "42"),
        ("text", Json.str "hello")]])).1
      (Json.arr [Json.obj [("id_str", Json.str "42"),
        ("text", Json.str "hello")]])).1 "42" = 1 := by
  have hproc : ProcessableTweet (Json.obj [("id_str", Json.str "42"),
      ("text", Json.str "hello")]) :=
    ⟨⟨Scalar.s "42", Scalar.s "", Scalar.s "", Scalar.s "", Scalar.s "hello",
      0, get_sentiment_label 0, Json.str "hello"⟩, rfl, "hello", rfl⟩
  refine C4_tweet_id_at_most_once emptyDB _ _ "42"
    (fun v => by simp [countTweetId, emptyDB]) ?_ ?_ ?_
  · intro t ht
    simp only [List.mem_singleton] at ht
    subst ht
    exact hproc
  · intro t ht
    simp only [List.mem_singleton] at ht
    subst ht
    exact hproc
  · exact ⟨Json.obj [("id_str", Json.str "42"), ("text", Json.str "hello")],
      by simp,
      ⟨Scalar.s "42", Scalar.s "", Scalar.s "", Scalar.s "", Scalar.s "hello",
        0, get_sentiment_label 0, Json.str "hello"⟩, rfl, rfl⟩

/-- Any sequence of tweet loads (over arbitrary inputs) keeps at most one
row per TEXT key once at most one is present. -/
theorem load_fold_count_le (v : String) :
    ∀ (inputs : List Json) (db0 : DB), countTweetId db0 v ≤ 1 →
    countTweetId (inputs.foldl
      (fun db i => (load_twitter_data db i).1) db0) v ≤ 1 := by
  intro inputs
  induction inputs with
  | nil => intro db0 h; exact h
  | cons i rest ih =>
      intro db0 h
      rw [List.foldl_cons]
      refine ih (load_twitter_data db0 i).1 ?_
      calc countTweetId (load_twitter_data db0 i).1 v
          ≤ max (countTweetId db0 v) 1 := load_twitter_count_bound db0 i v
        _ = 1 := max_eq_right h

/-- Any sequence of tweet loads preserves an exactly-one-row key. -/
theorem load_fold_count_one (v : String) :
    ∀ (inputs : List Json) (db0 : DB), countTweetId db0 v = 1 →
    countTweetId (inputs.foldl
      (fun db i => (load_twitter_data db i).1) db0) v = 1 := by
  intro inputs
  induction inputs with
  | nil => intro db0 h; exact h
  | cons i rest ih =>
      intro db0 h
      rw [List.foldl_cons]
      refine ih (load_twitter_data db0 i).1 (le_antisymm ?_ ?_)
      · calc countTweetId (load_twitter_data db0 i).1 v
            ≤ max (countTweetId db0 v) 1 := load_twitter_count_bound db0 i v
          _ = 1 := by rw [h, max_self]
      · calc 1 = countTweetId db0 v := h.symm
          _ ≤ countTweetId (load_twitter_data db0 i).1 v :=
              load_twitter_count_mono db0 i v

/-- C10 counterexample, under CPython's documented `lastrowid` semantics
(`left unchanged` after a failed insert): one call loads two id-less tweets
over a store with AAPL and MSFT rows.  The first tweet inserts the single
`''`-keyed row (id 1) and links it twice, leaving `lastrowid` at the last
`stock_tweets` rowid 2; the second tweet's ignored insert keeps that stale
value, the fallback SELECT is bypassed, and its link row references rowid 2
— which is not the id of any tweets row, let alone the single `''` row.  So
id-less tweets do not all link against the collapsed row. -/
theorem C10_stale_lastrowid_links_wrong_row :
    ((load_twitter_data_cursor dbAAPLMSFT
        (Json.arr [Json.obj [("text", Json.str "AAPL MSFT")],
          Json.obj [("text", Json.str "AAPL down")]])).1.tweets.map
        (fun r => (r.id, r.tweet_id)) = [(1, Scalar.s "")]) ∧
    (∃ r ∈ (load_twitter_data_cursor dbAAPLMSFT
        (Json.arr [Json.obj [("text", Json.str "AAPL MSFT")],
          Json.obj [("text", Json.str "AAPL down")]])).1.stock_tweets,
      r.tweet_id = 2) ∧
    (∀ tr ∈ (load_twitter_data_cursor dbAAPLMSFT
        (Json.arr [Json.obj [("text", Json.str "AAPL MSFT")],
          Json.obj [("text", Json.str "AAPL down")]])).1.tweets,
      tr.id ≠ 2) := by
  decide

/-- C10 amended: a tweet object without an `id_str` field binds the
empty-string key, and since the `TEXT UNIQUE` constraint applies to `''`
like any TEXT value, at most one `''`-keyed row exists after any sequence
of `load_twitter_data` calls over arbitrary inputs — exactly one from the
first successfully loaded batch containing an id-less tweet onwards.  (The
original linking clause is dropped: under CPython's documented `lastrowid`
semantics a stale rowid can bypass the fallback SELECT, so id-less tweets
need not link against the collapsed row.) -/
theorem C10_idless_single_row :
    (∀ (fields : List (String × Json)) (p : TweetParams),
      fields.find? (fun kv => kv.1 == "id_str") = none →
      tweetParams (Json.obj fields) = Except.ok p → p.bId = Scalar.s "") ∧
    (∀ (db0 : DB) (inputs : List Json), TweetIdUnique db0 →
      countTweetId (inputs.foldl
        (fun db i => (load_twitter_data db i).1) db0) "" ≤ 1) ∧
    (∀ (db0 : DB) (pre : List Json) (items : List Json) (post : List Json),
      TweetIdUnique db0 →
      (∀ t ∈ items, ProcessableTweet t) →
      (∃ t ∈ items, ∃ fields, t = Json.obj fields ∧
        fields.find? (fun kv => kv.1 == "id_str") = none) →
      countTweetId ((pre ++ Json.arr items :: post).foldl
        (fun db i => (load_twitter_data db i).1) db0) "" = 1) := by
  refine ⟨?_, ?_, ?_⟩
  · intro fields p hno h
    exact tweetParams_no_idstr fields p hno h
  · intro db0 inputs hinv
    exact load_fold_count_le "" inputs db0 (hinv "")
  · intro db0 pre items post hinv hall hv
    rw [List.foldl_append, List.foldl_cons]
    refine load_fold_count_one "" post _ (le_antisymm ?_ ?_)
    · calc countTweetId (load_twitter_data
            (pre.foldl (fun db i => (load_twitter_data db i).1) db0)
            (Json.arr items)).1 ""
          ≤ max (countTweetId
              (pre.foldl (fun db i => (load_twitter_data db i).1) db0) "") 1 :=
            load_twitter_count_bound _ (Json.arr items) ""
        _ = 1 := max_eq_right (load_fold_count_le "" pre db0 (hinv ""))
    · obtain ⟨t, ht, fields, rfl, hno⟩ := hv
      obtain ⟨p, hp, _⟩ := hall _ ht
      exact load_twitter_arr_exists _ items "" hall
        ⟨_, ht, p, hp, tweetParams_no_idstr fields p hno hp⟩

theorem C10_idless_single_row_witness :
    countTweetId (([Json.null] ++ Json.arr [Json.obj [("text", Json.str "hi")]]
        :: [Json.null]).foldl
      (fun db i => (load_twitter_data db i).1) emptyDB) "" = 1 := by
  refine C10_idless_single_row.2.2 emptyDB [Json.null]
    [Json.obj [("text", Json.str "hi")]] [Json.null]
    (fun v => by simp [countTweetId, emptyDB]) ?_ ?_
  · intro t ht
    simp only [List.mem_singleton] at ht
    subst ht
    exact ⟨⟨Scalar.s "", Scalar.s "", Scalar.s "", Scalar.s "", Scalar.s "hi",
      0, get_sentiment_label 0, Json.str "hi"⟩, rfl, "hi", rfl⟩
  · exact ⟨Json.obj [("text", Json.str "hi")], by simp,
      [("text", Json.str "hi")], rfl, rfl⟩

/-- Filtering by `P` inside a `Q`-filter is plain `P`-filtering when `P`
implies `Q`. -/
theorem filter_filter_imp {α : Type} (l : List α) (P Q : α → Bool)
    (h : ∀ x, P x = true → Q x = true) :
    (l.filter Q).filter P = l.filter P := by
  rw [List.filter_filter]
  apply List.filter_congr
  intro x _
  cases hP : P x
  · simp
  · simp [h x hP]

/-- A filter's length splits along any second predicate. -/
theorem length_filter_split {α : Type} (l : List α) (P Q : α → Bool) :
    (l.filter P).length =
      ((l.filter Q).filter P).length +
        ((l.filter (fun x => !(Q x))).filter P).length := by
  induction l with
  | nil => rfl
  | cons a t ih =>
      by_cases hQ : Q a = true <;> by_cases hP : P a = true <;>
        simp [hQ, hP, List.filter_cons, ih, Bool.not_eq_true] <;> omega

/-- Effect of one `INSERT OR REPLACE` on the keyed view. -/
theorem stockView_upsert (db : DB) (sym date : String) (v : StockVals)
    (sym' date' : String) :
    stockView (upsertStock db sym date v) sym' date' =
      if sym' = sym ∧ date' = date then some v
      else stockView db sym' date' := by
  unfold stockView upsertStock
  dsimp only
  rw [List.filter_append]
  by_cases h : sym' = sym ∧ date' = date
  · obtain ⟨h1, h2⟩ := h
    subst h1
    subst h2
    rw [if_pos ⟨rfl, rfl⟩]
    have hrem : (db.stocks.filter
        (fun r => !(r.symbol == sym' && r.date == date'))).filter
          (fun r => r.symbol == sym' && r.date == date') = [] := by
      rw [List.filter_eq_nil_iff]
      intro r hr
      rw [List.mem_filter] at hr
      have hfalse := hr.2
      rw [Bool.not_eq_true'] at hfalse
      simp [hfalse]
    rw [hrem]
    simp
  · rw [if_neg h]
    have hnew : (([(⟨db.seq_stocks + 1, sym, date, v.open_, v.high, v.low,
          v.close, v.adj_close, v.volume⟩ : StockRow)]).filter
          (fun r => r.symbol == sym' && r.date == date')) = [] := by
      simp only [List.filter_cons, List.filter_nil]
      rw [if_neg]
      intro hcond
      rw [Bool.and_eq_true, beq_iff_eq, beq_iff_eq] at hcond
      exact h ⟨hcond.1.symm, hcond.2.symm⟩
    rw [hnew, List.append_nil]
    rw [filter_filter_imp]
    intro r hP
    rw [Bool.and_eq_true, beq_iff_eq, beq_iff_eq] at hP
    cases hk : (r.symbol == sym && r.date == date)
    · simp
    · rw [Bool.and_eq_true, beq_iff_eq, beq_iff_eq] at hk
      exact absurd ⟨hP.1.symm.trans hk.1, hP.2.symm.trans hk.2⟩ h

/-- Effect of a whole file's upserts on the keyed view. -/
theorem stockView_foldUpserts (sym : String) :
    ∀ (ds : List (String × StockVals)) (db : DB) (sym' date' : String),
    stockView (foldUpserts sym ds db) sym' date' =
      if sym' = sym then
        (match lookupLast ds date' with
         | some w => some w
         | none => stockView db sym' date')
      else stockView db sym' date' := by
  intro ds
  induction ds with
  | nil =>
      intro db sym' date'
      by_cases h : sym' = sym <;> simp [foldUpserts, lookupLast, h]
  | cons e rest ih =>
      intro db sym' date'
      obtain ⟨d, v⟩ := e
      rw [show foldUpserts sym ((d, v) :: rest) db =
        foldUpserts sym rest (upsertStock db sym d v) from rfl]
      rw [ih]
      by_cases h : sym' = sym
      · rw [if_pos h, if_pos h]
        simp only [lookupLast]
        cases hl : lookupLast rest date' with
        | some w => rfl
        | none =>
            rw [stockView_upsert]
            by_cases hd : d = date'
            · rw [if_pos ⟨h, hd.symm⟩, if_pos (beq_iff_eq.mpr hd)]
            · rw [if_neg (fun hc => hd hc.2.symm),
                if_neg (fun hc => hd (beq_iff_eq.mp hc))]
      · rw [if_neg h, if_neg h, stockView_upsert, if_neg (fun hc => h hc.1)]

/-- Keys written by a file stay present in the view. -/
theorem foldUpserts_keys_present (sym : String) (ds : List (String × StockVals))
    (db : DB) (d : String) (hd : d ∈ ds.map Prod.fst) :
    stockView (foldUpserts sym ds db) sym d ≠ none := by
  rw [stockView_foldUpserts, if_pos rfl]
  have : ∃ w, lookupLast ds d = some w := by
    induction ds with
    | nil => cases hd
    | cons e rest ih =>
        obtain ⟨d0, v0⟩ := e
        rw [lookupLast]
        cases hl : lookupLast rest d with
        | some w => exact ⟨w, rfl⟩
        | none =>
            rcases List.mem_cons.mp hd with h0 | hmem
            · rw [if_pos (by simp [h0])]
              exact ⟨v0, rfl⟩
            · obtain ⟨w, hw⟩ := ih hmem
              rw [hw] at hl
              cases hl
  obtain ⟨w, hw⟩ := this
  rw [hw]
  exact Option.some_ne_none w

/-- `INSERT OR REPLACE` preserves the `UNIQUE(symbol, date)` invariant. -/
theorem keyUnique_upsert {db : DB} (h : StocksKeyUnique db)
    (sym date : String) (v : StockVals) :
    StocksKeyUnique (upsertStock db sym date v) := by
  intro s d
  unfold upsertStock
  dsimp only
  rw [List.filter_append, List.length_append]
  by_cases hk : s = sym ∧ d = date
  · obtain ⟨rfl, rfl⟩ := hk
    have hrem : (db.stocks.filter
        (fun r => !(r.symbol == s && r.date == d))).filter
          (fun r => r.symbol == s && r.date == d) = [] := by
      rw [List.filter_eq_nil_iff]
      intro r hr
      rw [List.mem_filter] at hr
      have hfalse := hr.2
      rw [Bool.not_eq_true'] at hfalse
      simp [hfalse]
    rw [hrem]
    simp
  · have hnew : (([(⟨db.seq_stocks + 1, sym, date, v.open_, v.high, v.low,
          v.close, v.adj_close, v.volume⟩ : StockRow)]).filter
          (fun r => r.symbol == s && r.date == d)) = [] := by
      simp only [List.filter_cons, List.filter_nil]
      rw [if_neg]
      intro hcond
      rw [Bool.and_eq_true, beq_iff_eq, beq_iff_eq] at hcond
      exact hk ⟨hcond.1.symm, hcond.2.symm⟩
    rw [hnew]
    rw [filter_filter_imp]
    · simpa using h s d
    · intro r hP
      rw [Bool.and_eq_true, beq_iff_eq, beq_iff_eq] at hP
      cases hkk : (r.symbol == sym && r.date == date)
      · simp
      · rw [Bool.and_eq_true, beq_iff_eq, beq_iff_eq] at hkk
        exact absurd ⟨hP.1.symm.trans hkk.1, hP.2.symm.trans hkk.2⟩ hk

/-- A whole file's upserts preserve the key invariant. -/
theorem keyUnique_foldUpserts (sym : String) :
    ∀ (ds : List (String × StockVals)) {db : DB}, StocksKeyUnique db →
    StocksKeyUnique (foldUpserts sym ds db) := by
  intro ds
  induction ds with
  | nil => intro db h; exact h
  | cons e rest ih =>
      intro db h
      obtain ⟨d, v⟩ := e
      exact ih (keyUnique_upsert h sym d v)

/-- A replace-upsert of an already-present key preserves every per-symbol
row count. -/
theorem countStockSym_upsert (db : DB) (sym date : String) (v : StockVals)
    (hone : (db.stocks.filter
      (fun r => r.symbol == sym && r.date == date)).length = 1)
    (sym' : String) :
    countStockSym (upsertStock db sym date v) sym' = countStockSym db sym' := by
  unfold countStockSym upsertStock
  dsimp only
  rw [List.filter_append, List.length_append,
    length_filter_split db.stocks (fun r => r.symbol == sym')
      (fun r => r.symbol == sym && r.date == date)]
  obtain ⟨r0, hr0⟩ := List.length_eq_one.mp hone
  have hr0mem : r0 ∈ db.stocks.filter
      (fun r => r.symbol == sym && r.date == date) := by
    rw [hr0]
    exact List.mem_singleton_self r0
  have hQ := (List.mem_filter.mp hr0mem).2
  rw [Bool.and_eq_true, beq_iff_eq, beq_iff_eq] at hQ
  rw [hr0]
  simp only [List.filter_cons, List.filter_nil, hQ.1]
  by_cases hs : (sym == sym') = true
  · simp only [hs, if_true]
    simp
    all_goals omega
  · simp only [Bool.not_eq_true] at hs
    simp only [hs, Bool.false_eq_true, if_false]
    simp
    all_goals omega

/-- A file's upserts preserve per-symbol counts when every written key is
already present and the store is key-unique. -/
theorem countStockSym_foldUpserts (sym : String) :
    ∀ (ds : List (String × StockVals)) {db : DB}, StocksKeyUnique db →
    (∀ d ∈ ds.map Prod.fst, stockView db sym d ≠ none) →
    ∀ sym', countStockSym (foldUpserts sym ds db) sym' = countStockSym db sym' := by
  intro ds
  induction ds with
  | nil => intro db _ _ sym'; rfl
  | cons e rest ih =>
      intro db hinv hpres sym'
      obtain ⟨d, v⟩ := e
      have hone : (db.stocks.filter
          (fun r => r.symbol == sym && r.date == d)).length = 1 := by
        have hle := hinv sym d
        have hne : stockView db sym d ≠ none := hpres d (by simp)
        have hpos : 0 < (db.stocks.filter
            (fun r => r.symbol == sym && r.date == d)).length := by
          cases hfil : db.stocks.filter
              (fun r => r.symbol == sym && r.date == d) with
          | nil =>
              exact absurd (by rw [stockView, hfil]; rfl) hne
          | cons a t => simp [hfil]
        omega
      rw [show foldUpserts sym ((d, v) :: rest) db =
        foldUpserts sym rest (upsertStock db sym d v) from rfl]
      rw [ih (keyUnique_upsert hinv sym d v) ?_ sym',
        countStockSym_upsert db sym d v hone sym']
      intro d' hd'
      rw [stockView_upsert]
      by_cases hk : sym = sym ∧ d' = d
      · rw [if_pos hk]
        exact Option.some_ne_none _
      · rw [if_neg hk]
        exact hpres d' (by simp [hd'])

/-- Re-applying a file's upserts changes no view entry. -/
theorem stockView_fold_idem (sym : String) (ds : List (String × StockVals))
    (db : DB) (sym' date' : String) :
    stockView (foldUpserts sym ds (foldUpserts sym ds db)) sym' date' =
      stockView (foldUpserts sym ds db) sym' date' := by
  rw [stockView_foldUpserts]
  by_cases h : sym' = sym
  · rw [if_pos h]
    cases hl : lookupLast ds date' with
    | some w => rw [stockView_foldUpserts, if_pos h, hl]
    | none => rfl
  · rw [if_neg h]

/-- The date loop is the fold of the file's upserts: it succeeds exactly
when the per-entry reads/bindings do, and then its effect on the store is
determined by the entry data alone. -/
theorem stockEntries_eq (items : List (String × Json)) :
    ∀ (sym : String) (db : DB) (n : Nat),
    stockEntries items sym db n =
      match entriesData items with
      | Except.ok ds => Except.ok (foldUpserts sym ds db, n + ds.length)
      | Except.error e => Except.error e := by
  induction items with
  | nil =>
      intro sym db n
      simp [stockEntries, entriesData, foldUpserts]
  | cons e rest ih =>
      intro sym db n
      simp only [stockEntries, entriesData, Bind.bind, Except.bind]
      cases hd : entryData e with
      | error e0 => rfl
      | ok dv =>
          obtain ⟨dd, vv⟩ := dv
          dsimp only
          rw [ih]
          cases hrest : entriesData rest with
          | error e0 => rfl
          | ok ds' =>
              dsimp only
              rw [show foldUpserts sym ((dd, vv) :: ds') db =
                foldUpserts sym ds' (upsertStock db sym dd vv) from rfl]
              simp only [Except.ok.injEq, Prod.mk.injEq, List.length_cons]
              exact ⟨trivial, by omega⟩

/-- The per-file `try` block in terms of the file's parse outcome. -/
theorem processStockFile_eq (f : StockFile) (sym : String) (db : DB) :
    processStockFile f sym db =
      match fileEntriesData f with
      | Except.ok ds => Except.ok (foldUpserts sym ds db, ds.length)
      | Except.error e => Except.error e := by
  unfold processStockFile fileEntriesData
  simp only [Bind.bind, Except.bind]
  cases f.content with
  | error e => rfl
  | ok data =>
      dsimp only
      cases pyItems data with
      | error e => rfl
      | ok items =>
          dsimp only
          rw [stockEntries_eq]
          cases entriesData items with
          | error e => rfl
          | ok ds => simp

/-- A one-file directory load in terms of the file's parse outcome. -/
theorem load_stock_single (db : DB) (f : StockFile) :
    (load_stock_data db (some [f])).1 =
      match fileEntriesData f with
      | Except.ok ds => foldUpserts (symbolOfStem f.stem) ds db
      | Except.error _ => db := by
  unfold load_stock_data
  dsimp only
  rw [if_neg (by simp)]
  unfold processStockFiles
  dsimp only
  rw [processStockFile_eq]
  cases fileEntriesData f with
  | error e => rfl
  | ok ds => rfl

/-- C2: loading the same valid stock file twice leaves, for every symbol,
the same row count as one load, and every `(symbol, date)` row's
open/high/low/close/adj_close/volume values equal those after the first
load (the `(symbol, date)`-keyed `INSERT OR REPLACE` upsert is idempotent). -/
theorem C2_stock_load_idempotent (db0 : DB) (f : StockFile)
    (ds : List (String × StockVals)) (hinv : StocksKeyUnique db0)
    (hf : fileEntriesData f = Except.ok ds) :
    (∀ sym', countStockSym (load_stock_data
        (load_stock_data db0 (some [f])).1 (some [f])).1 sym' =
      countStockSym (load_stock_data db0 (some [f])).1 sym') ∧
    (∀ sym' date', stockView (load_stock_data
        (load_stock_data db0 (some [f])).1 (some [f])).1 sym' date' =
      stockView (load_stock_data db0 (some [f])).1 sym' date') := by
  have h1 : (load_stock_data db0 (some [f])).1 =
      foldUpserts (symbolOfStem f.stem) ds db0 := by
    rw [load_stock_single, hf]
  have h2 : (load_stock_data (load_stock_data db0 (some [f])).1 (some [f])).1 =
      foldUpserts (symbolOfStem f.stem) ds
        (foldUpserts (symbolOfStem f.stem) ds db0) := by
    rw [load_stock_single, hf, h1]
  rw [h2, h1]
  constructor
  · intro sym'
    exact countStockSym_foldUpserts _ ds (keyUnique_foldUpserts _ ds hinv)
      (fun d hd => foldUpserts_keys_present _ ds db0 d hd) sym'
  · intro sym' date'
    exact stockView_fold_idem _ ds db0 sym' date'

theorem C2_stock_load_idempotent_witness :
    (countStockSym (load_stock_data
        (load_stock_data emptyDB (some [fileAAPL])).1 (some [fileAAPL])).1
        "AAPL" =
      countStockSym (load_stock_data emptyDB (some [fileAAPL])).1 "AAPL") ∧
    (stockView (load_stock_data
        (load_stock_data emptyDB (some [fileAAPL])).1 (some [fileAAPL])).1
        "AAPL" "2024-01-02" =
      stockView (load_stock_data emptyDB (some [fileAAPL])).1
        "AAPL" "2024-01-02") := by
  have h := C2_stock_load_idempotent emptyDB fileAAPL
    [("2024-01-02", ⟨Scalar.n 10, Scalar.n 12, Scalar.n 9, Scalar.n 11,
      Scalar.n 11, Scalar.n 1000⟩)]
    (fun sym date => by simp [emptyDB]) rfl
  exact ⟨h.1 "AAPL", h.2 "AAPL" "2024-01-02"⟩

/-- The file loop touches only the keys `outKey f` of its files and
`"total"`: any other key keeps its prior summary entry. -/
theorem psf_frame : ∀ (files : List StockFile) (db : DB) (s : Dict)
    (k : String), k ∉ files.map outKey → k ≠ "total" →
    dictLookup (processStockFiles files db s).2 k = dictLookup s k := by
  intro files
  induction files with
  | nil => intro db s k _ _; rfl
  | cons f rest ih =>
      intro db s k hk htot
      have hk0 : k ≠ outKey f := fun h => hk (by simp [h])
      have hkrest : k ∉ rest.map outKey := fun h => hk (by simp [h])
      unfold processStockFiles
      dsimp only
      rw [processStockFile_eq]
      cases hfe : fileEntriesData f with
      | ok ds =>
          have hok : outKey f = symbolOfStem f.stem := by rw [outKey, hfe]
          dsimp only
          rw [ih _ _ k hkrest htot, dictLookup_dictSet_ne _ _ htot,
            dictLookup_dictSet_ne]
          rw [← hok]
          exact hk0
      | error e =>
          have hek : outKey f = symbolOfStem f.stem ++ "_error" := by
            rw [outKey, hfe]
          dsimp only
          rw [ih _ _ k hkrest htot, dictLookup_dictSet_ne]
          rw [← hek]
          exact hk0

/-- Every file's outcome ends up in the summary under its own key: a parse
failure is recorded under `<symbol>_error`, a success as the record count
under the symbol, regardless of failures of other files. -/
theorem psf_mem : ∀ (files : List StockFile) (db : DB) (s : Dict),
    (files.map outKey).Nodup → "total" ∉ files.map outKey →
    ∀ f ∈ files,
    dictLookup (processStockFiles files db s).2 (outKey f) = some (outVal f) := by
  intro files
  induction files with
  | nil => intro db s _ _ f hf; cases hf
  | cons f0 rest ih =>
      intro db s hnd htot f hf
      have hnd0 : outKey f0 ∉ rest.map outKey := (List.nodup_cons.mp hnd).1
      have hndrest : (rest.map outKey).Nodup := (List.nodup_cons.mp hnd).2
      have htot0 : outKey f0 ≠ "total" := fun h => htot (by simp [← h])
      have htotrest : "total" ∉ rest.map outKey := fun h => htot (by simp [h])
      unfold processStockFiles
      dsimp only
      rw [processStockFile_eq]
      rcases List.mem_cons.mp hf with rfl | hmem
      · cases hfe : fileEntriesData f with
        | ok ds =>
            have hok : outKey f = symbolOfStem f.stem := by rw [outKey, hfe]
            have hval : outVal f = SVal.num ds.length := by rw [outVal, hfe]
            dsimp only
            rw [psf_frame rest _ _ _ hnd0 htot0,
              dictLookup_dictSet_ne _ _ htot0, hok,
              dictLookup_dictSet_self, ← hval]
        | error e =>
            have hek : outKey f = symbolOfStem f.stem ++ "_error" := by
              rw [outKey, hfe]
            have hval : outVal f = SVal.msg e := by rw [outVal, hfe]
            dsimp only
            rw [psf_frame rest _ _ _ hnd0 htot0, hek,
              dictLookup_dictSet_self, ← hval]
      · cases hfe : fileEntriesData f0 with
        | ok ds =>
            dsimp only
            exact ih _ _ hndrest htotrest f hmem
        | error e =>
            dsimp only
            exact ih _ _ hndrest htotrest f hmem

/-- C9: with the source directory present, a parse failure of one symbol's
file is caught and recorded under `<symbol>_error` in the summary, every
other file is still processed and its count recorded under its symbol, and
the summary carries no batch-level `error` entry; only a missing source
directory returns the batch-level error summary. -/
theorem C9_stock_partial_failure (db : DB) (files : List StockFile)
    (hne : files ≠ [])
    (hkeys : ("total" :: "error" :: files.map outKey).Nodup) :
    dictLookup (load_stock_data db (some files)).2 "error" = none ∧
    (∀ f ∈ files, dictLookup (load_stock_data db (some files)).2 (outKey f) =
      some (outVal f)) ∧
    load_stock_data db none =
      (db, [("error", SVal.msg "Stock data directory not found"),
            ("loaded_count", SVal.num 0)]) := by
  have h1 := List.nodup_cons.mp hkeys
  have h2 := List.nodup_cons.mp h1.2
  have htot : "total" ∉ files.map outKey := fun h => h1.1 (by simp [h])
  have herr : "error" ∉ files.map outKey := h2.1
  have hmapnd : (files.map outKey).Nodup := h2.2
  have hload : load_stock_data db (some files) =
      processStockFiles files db [("total", SVal.num 0)] := by
    unfold load_stock_data
    dsimp only
    rw [if_neg]
    intro hempty
    exact hne (List.isEmpty_iff.mp hempty)
  refine ⟨?_, ?_, rfl⟩
  · rw [hload, psf_frame files db _ "error" herr (by decide)]
    rfl
  · intro f hf
    rw [hload]
    exact psf_mem files db _ hmapnd htot f hf

theorem C9_stock_partial_failure_witness :
    dictLookup (load_stock_data emptyDB
      (some [fileBadMSFT, fileAAPL])).2 "error" = none ∧
    dictLookup (load_stock_data emptyDB
      (some [fileBadMSFT, fileAAPL])).2 (outKey fileBadMSFT) =
        some (outVal fileBadMSFT) ∧
    dictLookup (load_stock_data emptyDB
      (some [fileBadMSFT, fileAAPL])).2 (outKey fileAAPL) =
        some (outVal fileAAPL) := by
  have h := C9_stock_partial_failure emptyDB [fileBadMSFT, fileAAPL]
    (by simp) (by decide)
  exact ⟨h.1, h.2.1 fileBadMSFT (by simp), h.2.1 fileAAPL (by simp)⟩
